import Mathlib

/-!
Shallow embedding of the Phone-Agreement-Management Django application
(apps `accounts`, `agreements`, `sales`) together with proofs about its
state-transition behaviour.

Modelling conventions:
* Database rows are Lean structures; each table is a `List` of rows inside `DB`.
* Django `DecimalField` values are rational numbers (`Rat`); Python truthiness
  of a `Decimal` is `≠ 0`, of a string is `≠ ""`, of `None` is false.
* Auto timestamps (`created_at`, `updated_at`, `suspended_at`, `sale_date`)
  carry the time of the request; no claim mentions them, so they are omitted
  from the row structures.
* A view is a function from the current database, the request user and the
  parsed POST data to a `ViewResult` (new database, HTTP response, flash
  messages).  `get_object_or_404` misses are the `Resp.notFound` branch.
* Several views call `Model.objects.create(...)` with keyword arguments that
  are not fields of the model (`agreements/views.py` keeps two diverging
  versions of some views).  Django's `Model.__init__` raises `TypeError`
  before any row is constructed or written; the surrounding
  `except Exception` handler reports the error.  The embedding records each
  model's field-name list (straight from `models.py`) and guards those
  `create` calls with the same membership test Django performs.
-/

namespace PAM

/-- Model of `accounts/models.py` `CustomUser`.  `role` is nullable; `hasSignature`
stands for the `signature` image field (truthy iff a file is present). -/
structure CustomUser where
  id : Nat
  username : String
  email : String
  role : Option String
  is_superuser : Bool
  is_suspended : Bool
  suspended_reason : String
  suspended_by : Option Nat
  first_name : String
  last_name : String
  phone_number : String
  address : String
  national_id : String
  hasSignature : Bool
  deriving DecidableEq

/-- Model of `CustomUser.is_manager`. -/
def CustomUser.is_manager (u : CustomUser) : Bool := u.role = some "manager"

/-- Model of `CustomUser.is_seller`. -/
def CustomUser.is_seller (u : CustomUser) : Bool := u.role = some "seller"

/-- Model of `CustomUser.suspend(reason, suspended_by)` (field updates only; the
`save()` is performed by the caller through `updateUser`). -/
def CustomUser.suspend (u : CustomUser) (reason : String) (by_ : Option Nat) : CustomUser :=
  { u with is_suspended := true, suspended_reason := reason, suspended_by := by_ }

/-- Model of `CustomUser.activate()`. -/
def CustomUser.activate (u : CustomUser) : CustomUser :=
  { u with is_suspended := false, suspended_reason := "", suspended_by := none }

/-- Model of `agreements/models.py` `Phone`. -/
structure Phone where
  id : Nat
  imei : String
  serial_number : String
  brand : String
  model : String
  color : String
  condition : String
  status : String
  purchase_price : Option Rat
  current_owner : Nat
  deriving DecidableEq

/-- Model of `agreements/models.py` `Agreement`.  The photo/signature file fields hold
the stored file name when present. -/
structure Agreement where
  id : Nat
  agreement_type : String
  phone : Nat
  seller : Nat
  customer_name : String
  customer_national_id : String
  customer_phone : String
  customer_address : String
  id_photo : Option String
  signature_photo : Option String
  price : Rat
  notes : String
  deriving DecidableEq

/-- Model of `agreements/models.py` `PhoneHistory`. -/
structure PhoneHistory where
  phone : Nat
  action : String
  from_user : Option Nat
  to_user : Option Nat
  agreement : Option Nat
  notes : String
  deriving DecidableEq

/-- Model of `agreements/models.py` `PhoneAssignment`. -/
structure PhoneAssignment where
  id : Nat
  phone : Nat
  from_seller : Nat
  to_seller : Nat
  status : String
  message : String
  deriving DecidableEq

/-- Model of `sales/models.py` `SalesTransaction`. -/
structure SalesTransaction where
  transaction_id : String
  seller : Nat
  phone : Nat
  agreement : Option Nat
  customer_name : String
  customer_phone : String
  customer_email : String
  sale_price : Rat
  cost_price : Rat
  profit : Rat
  commission_rate : Rat
  commission_amount : Rat
  payment_method : String
  status : String
  deriving DecidableEq

/-- Model of `sales/models.py` `SalesTransaction.save`: recompute `profit` and
`commission_amount` when both prices are truthy (Python `Decimal` truthiness:
nonzero); generate a `transaction_id` when the stored one is blank (the
timestamp-based generated id is passed in as `gen`).  Finally the row is
persisted by the caller. -/
def SalesTransaction.save (gen : String) (t : SalesTransaction) : SalesTransaction :=
  let t1 :=
    if t.sale_price ≠ 0 ∧ t.cost_price ≠ 0 then
      { t with profit := t.sale_price - t.cost_price,
               commission_amount := (t.sale_price - t.cost_price) * t.commission_rate / 100 }
    else t
  if t1.transaction_id = "" then { t1 with transaction_id := gen } else t1

/-- The whole persistent state: one list per table, plus the next
auto-increment primary key of each table that gets inserted into. -/
structure DB where
  users : List CustomUser
  phones : List Phone
  agreements : List Agreement
  histories : List PhoneHistory
  assignments : List PhoneAssignment
  transactions : List SalesTransaction
  nextUserId : Nat
  nextPhoneId : Nat
  nextAgreementId : Nat
  nextAssignmentId : Nat
  deriving DecidableEq

def findPhone (db : DB) (pid : Nat) : Option Phone :=
  db.phones.find? fun p => p.id == pid

def findUser (db : DB) (uid : Nat) : Option CustomUser :=
  db.users.find? fun u => u.id == uid

def findAssignment (db : DB) (aid : Nat) : Option PhoneAssignment :=
  db.assignments.find? fun a => a.id == aid

def usernameOf (db : DB) (uid : Nat) : String :=
  ((findUser db uid).map CustomUser.username).getD ""

/-- Replace every row whose key equals `key x` by `x` (a SQL `UPDATE … WHERE
key = key x`; primary keys are unique in any real database state, see `WF`). -/
def updateByKey {α : Type} (key : α → Nat) (x : α) (l : List α) : List α :=
  l.map fun y => if key y = key x then x else y

def updatePhone (db : DB) (p : Phone) : DB :=
  { db with phones := updateByKey Phone.id p db.phones }

def updateUser (db : DB) (u : CustomUser) : DB :=
  { db with users := updateByKey CustomUser.id u db.users }

def updateAssignment (db : DB) (a : PhoneAssignment) : DB :=
  { db with assignments := updateByKey PhoneAssignment.id a db.assignments }

/-- HTTP-level outcome of a view. -/
inductive Resp where
  | redirect (target : String)
  | rendered (template : String)
  | notFound
  deriving DecidableEq

/-- Django `messages` flash messages. -/
inductive Msg where
  | error (text : String)
  | success (text : String)
  | warning (text : String)
  | info (text : String)
  deriving DecidableEq

structure ViewResult where
  db : DB
  resp : Resp
  msgs : List Msg
  deriving DecidableEq

/-! ### Suspension middleware (`accounts/middleware.py`) -/

/-- Path given by `reverse('hold')`: the path of the `hold` route of `accounts/urls.py`
(`path('hold/', …)`, mounted at the project root). -/
def holdPath : String := "/hold/"

/-- Path given by `reverse('logout')`. -/
def logoutPath : String := "/logout/"

/-- Model of `SuspensionMiddleware.allowed_urls`. -/
def allowed_urls : List String := [holdPath, logoutPath]

inductive MwOutcome where
  | redirectHold
  | passThrough
  deriving DecidableEq

/-- Model of `SuspensionMiddleware.__call__`: `request.user` is `none` for an anonymous
request (then `is_authenticated` is false) and `some u` for an authenticated
one (then `hasattr(request.user, 'is_suspended')` always holds, the attribute
being a `CustomUser` model field). -/
def SuspensionMiddleware.call (user : Option CustomUser) (path : String) : MwOutcome :=
  match user with
  | none => .passThrough
  | some u =>
    if u.is_suspended then
      if ¬ (path ∈ allowed_urls) then .redirectHold else .passThrough
    else .passThrough

/-! ### Base64 photo capture

`buy_phone_view` / `sell_phone_view` decode webcam captures with
`format, imgstr = photo.split(';base64,')` followed by
`base64.b64decode(imgstr)`.  The unpacking raises `ValueError` unless the
split yields exactly two parts; CPython's `binascii.a2b_base64`
(`validate=False`) discards bytes outside the base64 alphabet and raises
`binascii.Error` when the remaining data is not a multiple of four
characters long. -/

def isPrefixOfChars : List Char → List Char → Bool
  | [], _ => true
  | _ :: _, [] => false
  | c :: cs, d :: ds => c == d && isPrefixOfChars cs ds

/-- Python `s.startswith(pre)`. -/
def pyStartsWith (s pre : String) : Bool := isPrefixOfChars pre.toList s.toList

/-- Number of positions where `sep` occurs in the list.  For Python's
`s.split(sep)` the number of fragments is the number of non-overlapping
occurrences plus one; the separator used by the views, `";base64,"`, has no
proper border, so occurrences cannot overlap and this count agrees with
Python's. -/
def occCount (sep : List Char) : List Char → Nat
  | [] => 0
  | c :: rest => (if isPrefixOfChars sep (c :: rest) then 1 else 0) + occCount sep rest

/-- The characters after the first occurrence of `sep` (the second fragment
of Python's `split` when there is exactly one occurrence). -/
def afterFirst (sep : List Char) : List Char → List Char
  | [] => []
  | c :: rest =>
    if isPrefixOfChars sep (c :: rest) then List.drop (sep.length - 1) rest
    else afterFirst sep rest

def b64sep : List Char := (";base64,").toList

def isB64Char (c : Char) : Bool := c.isAlphanum || c == '+' || c == '/' || c == '='

/-- CPython `binascii.a2b_base64` with `validate=False`: bytes outside the
base64 alphabet are discarded, then the data must be a multiple of four
characters long, otherwise `binascii.Error` is raised. -/
def b64decodeOk (payload : List Char) : Bool :=
  (payload.filter isB64Char).length % 4 == 0

/-- Whether the photo-saving step of the view body completes without raising:
`format, imgstr = photo.split(';base64,')` raises `ValueError` unless the
split yields exactly two parts (exactly one separator occurrence), then
`base64.b64decode(imgstr)` must not raise. -/
def photoStepOk (photo : Option String) : Bool :=
  match photo with
  | none => true
  | some s =>
    if s = "" then true
    else if pyStartsWith s "data:image" then
      if occCount b64sep s.toList == 1 then b64decodeOk (afterFirst b64sep s.toList)
      else false
    else true

/-- Whether the view actually stores a photo file (`if photo and
photo.startswith('data:image')`). -/
def photoApplied (photo : Option String) : Bool :=
  match photo with
  | none => false
  | some s => s ≠ "" && pyStartsWith s "data:image"

/-! ### Model field names and stale-view kwargs

`agreements/views.py` contains two diverging generations of several views;
the stale generation passes `create()` kwargs that are not fields of the
models in `models.py`.  Django's `Model.__init__` raises `TypeError` for any
unknown kwarg, before a row is constructed or written. -/

def phoneFieldNames : List String :=
  ["id", "imei", "serial_number", "brand", "model", "color", "condition",
   "status", "purchase_price", "current_owner", "created_at", "updated_at"]

def agreementFieldNames : List String :=
  ["id", "agreement_type", "phone", "seller", "customer_name",
   "customer_national_id", "customer_phone", "customer_address", "id_photo",
   "passport_photo", "signature", "signature_photo", "price", "notes",
   "created_at"]

def phoneHistoryFieldNames : List String :=
  ["id", "phone", "action", "from_user", "to_user", "agreement", "notes",
   "created_at"]

def phoneAssignmentFieldNames : List String :=
  ["id", "phone", "from_seller", "to_seller", "status", "message",
   "created_at", "updated_at"]

def salesTargetFieldNames : List String :=
  ["id", "seller", "target_type", "target_value", "achieved_value",
   "start_date", "end_date", "is_active", "is_achieved", "achievement_date",
   "incentive_amount", "notes", "created_at", "updated_at"]

/-- The kwargs of `PhoneAssignment.objects.create` in `phone_assign_view`. -/
def phone_assign_create_kwargs : List String :=
  ["phone", "from_seller", "to_seller", "reason"]

/-- The kwargs of `PhoneHistory.objects.create` in `phone_assign_view`. -/
def phone_assign_history_kwargs : List String :=
  ["phone", "action", "description", "performed_by"]

/-- The kwargs of `Phone.objects.create` in `phone_create_view`. -/
def phone_create_kwargs : List String :=
  ["brand", "model", "imei_number", "serial_number", "color",
   "storage_capacity", "purchase_price", "current_owner", "status", "notes"]

/-- The kwargs of `PhoneHistory.objects.create` in `phone_update_view`. -/
def phone_update_history_kwargs : List String :=
  ["phone", "action", "description", "performed_by"]

/-- The kwargs of `Agreement.objects.create` in `agreement_create_view`. -/
def agreement_create_kwargs : List String :=
  ["phone", "seller", "agreement_type", "buyer_name", "buyer_phone",
   "buyer_email", "buyer_address", "buyer_id_type", "buyer_id_number",
   "agreed_price", "payment_method", "agreement_duration_days",
   "terms_and_conditions", "seller_signature_base64",
   "buyer_signature_base64", "id_document_photo", "passport_photo"]

/-- The kwargs of `SalesTarget.objects.create` in `target_create_view`. -/
def target_create_kwargs : List String :=
  ["seller", "target_type", "target_value", "period_type", "start_date",
   "end_date", "description"]

/-! ### Views (POST handling paths)

Each view takes the request user as a `CustomUser` value; POST data arrives
pre-parsed (a `DecimalField`-bound value is `Option Rat`, `none` standing for
a missing or unconvertible value, which makes the corresponding `create`/
`Decimal()` call raise). -/

/-- Model of the `all([first_name, last_name, signature, phone_number, address,
national_id])` profile-completion check of `buy_phone_view` /
`sell_phone_view`. -/
def profileComplete (u : CustomUser) : Bool :=
  u.first_name != "" && u.last_name != "" && u.hasSignature &&
  u.phone_number != "" && u.address != "" && u.national_id != ""

def updateAgreement (db : DB) (a : Agreement) : DB :=
  { db with agreements := updateByKey Agreement.id a db.agreements }

structure SellPost where
  buyer_name : String
  buyer_id : String
  buyer_phone : String
  buyer_address : String
  agreed_price : Option Rat
  notes : String
  buyer_email : String
  payment_method : String
  buyer_id_photo : Option String
  buyer_signature_photo : Option String
  deriving DecidableEq

/-- Model of `agreements/views.py` `sell_phone_view`, POST branch.  The writes happen
in source order — agreement INSERT, photo file saves (agreement UPDATEs),
phone status UPDATE, transaction INSERT, history INSERT — with no enclosing
database transaction: a step that raises leaves every earlier write
committed and only reports a flash error. -/
def sell_phone_view (db : DB) (user : CustomUser) (phone_id : Nat) (post : SellPost) :
    ViewResult :=
  match findPhone db phone_id with
  | none => ⟨db, .notFound, []⟩
  | some phone =>
    if phone.status ≠ "available" then
      ⟨db, .redirect "phone_detail", [.error "This phone is not available for sale."]⟩
    else if ¬ profileComplete user then
      ⟨db, .redirect "profile", [.warning "Please complete your profile before creating agreements."]⟩
    else
      match post.agreed_price with
      | none =>
        -- Agreement.objects.create is the first write; converting a missing or
        -- malformed agreed_price for the DecimalField price raises there,
        -- before the INSERT, so nothing is persisted.
        ⟨db, .rendered "agreements/sell_phone.html", [.error "Error creating sale: invalid price"]⟩
      | some price =>
        let agreement : Agreement :=
          { id := db.nextAgreementId, agreement_type := "sell", phone := phone.id,
            seller := user.id, customer_name := post.buyer_name,
            customer_national_id := post.buyer_id, customer_phone := post.buyer_phone,
            customer_address := post.buyer_address, id_photo := none,
            signature_photo := none, price := price, notes := post.notes }
        let db1 : DB := { db with agreements := db.agreements ++ [agreement],
                                  nextAgreementId := db.nextAgreementId + 1 }
        if ¬ photoStepOk post.buyer_id_photo then
          -- b64decode raised; the agreement INSERT above is already committed
          ⟨db1, .rendered "agreements/sell_phone.html", [.error "Error creating sale: invalid base64"]⟩
        else
          let agreement2 :=
            if photoApplied post.buyer_id_photo then
              { agreement with id_photo := some ("buyer_id_" ++ toString agreement.id) }
            else agreement
          let db2 := if photoApplied post.buyer_id_photo then updateAgreement db1 agreement2 else db1
          if ¬ photoStepOk post.buyer_signature_photo then
            ⟨db2, .rendered "agreements/sell_phone.html", [.error "Error creating sale: invalid base64"]⟩
          else
            let agreement3 :=
              if photoApplied post.buyer_signature_photo then
                { agreement2 with signature_photo := some ("buyer_sig_" ++ toString agreement.id) }
              else agreement2
            let db3 := if photoApplied post.buyer_signature_photo then updateAgreement db2 agreement3 else db2
            let db4 := updatePhone db3 { phone with status := "sold" }
            let cost : Rat := phone.purchase_price.getD 0
            let txn : SalesTransaction := SalesTransaction.save ""
              { transaction_id := "TXN-" ++ toString agreement.id, seller := user.id,
                phone := phone.id, agreement := some agreement.id,
                customer_name := post.buyer_name, customer_phone := post.buyer_phone,
                customer_email := post.buyer_email, sale_price := price,
                cost_price := cost, profit := price - cost, commission_rate := 0,
                commission_amount := 0, payment_method := post.payment_method,
                status := "completed" }
            if db4.transactions.any (fun t => t.transaction_id == txn.transaction_id) then
              -- unique constraint on transaction_id: the INSERT raises; the
              -- agreement and the phone status change are already committed
              ⟨db4, .rendered "agreements/sell_phone.html", [.error "Error creating sale: duplicate transaction id"]⟩
            else
              let db5 := { db4 with transactions := db4.transactions ++ [txn] }
              let hist : PhoneHistory :=
                { phone := phone.id, action := "sell", from_user := some user.id,
                  to_user := none, agreement := some agreement.id,
                  notes := "Phone sold to " ++ post.buyer_name }
              let db6 := { db5 with histories := db5.histories ++ [hist] }
              ⟨db6, .redirect "agreement_detail", [.success "Phone sold and agreement created successfully!"]⟩

structure BuyPost where
  imei_number : String
  serial_number : String
  brand : String
  model : String
  color : String
  condition : String
  purchase_price : Option Rat
  supplier_name : String
  supplier_id : String
  supplier_phone : String
  supplier_address : String
  notes : String
  supplier_id_photo : Option String
  supplier_signature_photo : Option String
  deriving DecidableEq

/-- Model of `agreements/views.py` `buy_phone_view`, POST branch.  (A malformed — as
opposed to missing — `purchase_price` string would abort at the Phone INSERT
with nothing persisted; no claim depends on that case and it is not given a
separate representation.) -/
def buy_phone_view (db : DB) (user : CustomUser) (post : BuyPost) : ViewResult :=
  if ¬ profileComplete user then
    ⟨db, .redirect "profile", [.warning "Please complete your profile before creating agreements."]⟩
  else if db.phones.any (fun p => p.imei == post.imei_number || p.serial_number == post.serial_number) then
    -- unique constraint on imei / serial_number: the first INSERT raises,
    -- nothing is persisted
    ⟨db, .rendered "agreements/buy_phone.html", [.error "Error creating purchase: duplicate imei or serial"]⟩
  else
    let phone : Phone :=
      { id := db.nextPhoneId, imei := post.imei_number,
        serial_number := post.serial_number, brand := post.brand,
        model := post.model, color := post.color, condition := post.condition,
        status := "available", purchase_price := post.purchase_price,
        current_owner := user.id }
    let db1 := { db with phones := db.phones ++ [phone], nextPhoneId := db.nextPhoneId + 1 }
    match post.purchase_price with
    | none =>
      -- Agreement.objects.create(price=None) violates NOT NULL on price; the
      -- phone INSERT above is already committed
      ⟨db1, .rendered "agreements/buy_phone.html", [.error "Error creating purchase: null price"]⟩
    | some price =>
      let agreement : Agreement :=
        { id := db1.nextAgreementId, agreement_type := "buy", phone := phone.id,
          seller := user.id, customer_name := post.supplier_name,
          customer_national_id := post.supplier_id,
          customer_phone := post.supplier_phone,
          customer_address := post.supplier_address, id_photo := none,
          signature_photo := none, price := price, notes := post.notes }
      let db2 := { db1 with agreements := db1.agreements ++ [agreement],
                            nextAgreementId := db1.nextAgreementId + 1 }
      if ¬ photoStepOk post.supplier_id_photo then
        ⟨db2, .rendered "agreements/buy_phone.html", [.error "Error creating purchase: invalid base64"]⟩
      else
        let agreement2 :=
          if photoApplied post.supplier_id_photo then
            { agreement with id_photo := some ("supplier_id_" ++ toString agreement.id) }
          else agreement
        let db3 := if photoApplied post.supplier_id_photo then updateAgreement db2 agreement2 else db2
        if ¬ photoStepOk post.supplier_signature_photo then
          ⟨db3, .rendered "agreements/buy_phone.html", [.error "Error creating purchase: invalid base64"]⟩
        else
          let agreement3 :=
            if photoApplied post.supplier_signature_photo then
              { agreement2 with signature_photo := some ("supplier_sig_" ++ toString agreement.id) }
            else agreement2
          let db4 := if photoApplied post.supplier_signature_photo then updateAgreement db3 agreement3 else db3
          let hist : PhoneHistory :=
            { phone := phone.id, action := "buy", from_user := some user.id,
              to_user := none, agreement := some agreement.id,
              notes := "Phone purchased from " ++ post.supplier_name }
          let db5 := { db4 with histories := db4.histories ++ [hist] }
          ⟨db5, .redirect "agreement_detail", [.success "Phone purchased and agreement created successfully!"]⟩

structure AssignPost where
  to_seller : Option Nat
  message : String
  deriving DecidableEq

/-- Model of `agreements/views.py` `assign_phone_view`, POST branch (the routed
assignment-creation view). -/
def assign_phone_view (db : DB) (user : CustomUser) (phone_id : Nat) (post : AssignPost) :
    ViewResult :=
  match db.phones.find? (fun p => p.id == phone_id && p.current_owner == user.id) with
  | none => ⟨db, .notFound, []⟩
  | some phone =>
    if phone.status ≠ "available" then
      ⟨db, .redirect "phone_list", [.error "Only available phones can be assigned."]⟩
    else
      match post.to_seller.bind (fun tid =>
          db.users.find? fun u2 => u2.id == tid && decide (u2.role = some "seller") && !u2.is_suspended) with
      | none => ⟨db, .rendered "agreements/assign_phone.html", [.error "Invalid seller selected."]⟩
      | some to_seller =>
        if to_seller.id = user.id then
          ⟨db, .redirect "assign_phone", [.error "You cannot assign a phone to yourself."]⟩
        else
          let a : PhoneAssignment :=
            { id := db.nextAssignmentId, phone := phone.id, from_seller := user.id,
              to_seller := to_seller.id, status := "pending", message := post.message }
          let db1 := { db with assignments := db.assignments ++ [a],
                               nextAssignmentId := db.nextAssignmentId + 1 }
          let db2 := updatePhone db1 { phone with status := "assigned" }
          ⟨db2, .redirect "phone_list",
            [.success ("Assignment request sent to " ++ to_seller.first_name ++ " " ++ to_seller.last_name)]⟩

structure PhoneAssignPost where
  to_seller : Option Nat
  reason : String
  deriving DecidableEq

/-- Model of `agreements/views.py` `phone_assign_view`, POST branch (the stale,
unrouted assignment-creation view).  Its `PhoneAssignment.objects.create`
passes `reason=`, which is not a `PhoneAssignment` field, so Django raises
`TypeError` before anything is written and the blanket `except Exception`
reports it.  The branch under the kwargs check mirrors the rest of the body
under the counterfactual that Django dropped the unknown kwarg instead of
raising — note it would mark even a sold phone as assigned, having no status
guard. -/
def phone_assign_view (db : DB) (user : CustomUser) (pk : Nat) (post : PhoneAssignPost) :
    ViewResult :=
  match findPhone db pk with
  | none => ⟨db, .notFound, []⟩
  | some phone =>
    if phone.current_owner ≠ user.id ∧ user.is_manager = false then
      ⟨db, .redirect "phone_detail", [.error "You do not have permission to assign this phone."]⟩
    else
      -- body of the try block; get_object_or_404's Http404 is also caught by
      -- the blanket except Exception
      match post.to_seller.bind (fun tid =>
          db.users.find? fun u2 => u2.id == tid && decide (u2.role = some "seller")) with
      | none => ⟨db, .rendered "agreements/phone_assign.html", [.error "Error assigning phone: Http404"]⟩
      | some to_seller =>
        if phone_assign_create_kwargs.all (fun k => phoneAssignmentFieldNames.contains k) then
          let a : PhoneAssignment :=
            { id := db.nextAssignmentId, phone := phone.id, from_seller := user.id,
              to_seller := to_seller.id, status := "pending", message := "" }
          let db1 := { db with assignments := db.assignments ++ [a],
                               nextAssignmentId := db.nextAssignmentId + 1 }
          let db2 := updatePhone db1 { phone with status := "assigned" }
          if phone_assign_history_kwargs.all (fun k => phoneHistoryFieldNames.contains k) then
            let hist : PhoneHistory :=
              { phone := phone.id, action := "assigned", from_user := some user.id,
                to_user := none, agreement := none, notes := "" }
            let db3 := { db2 with histories := db2.histories ++ [hist] }
            ⟨db3, .redirect "phone_detail", [.success "Phone assigned successfully!"]⟩
          else
            ⟨db2, .rendered "agreements/phone_assign.html", [.error "Error assigning phone: TypeError"]⟩
        else
          ⟨db, .rendered "agreements/phone_assign.html", [.error "Error assigning phone: TypeError"]⟩

/-- History row written by `PhoneAssignment.approve` (`agreements/models.py`). -/
def approveHistoryRow (db : DB) (a : PhoneAssignment) (phone : Phone) : PhoneHistory :=
  { phone := phone.id, action := "approve", from_user := some a.from_seller,
    to_user := some a.to_seller, agreement := none,
    notes := "Assignment approved: " ++ phone.imei ++ " transferred from " ++
      usernameOf db a.from_seller ++ " to " ++ usernameOf db a.to_seller }

/-- History row written by `PhoneAssignment.reject`: note the source swaps the
users (`from_user=self.to_seller, to_user=self.from_seller`). -/
def rejectHistoryRow (db : DB) (a : PhoneAssignment) (phone : Phone) : PhoneHistory :=
  { phone := phone.id, action := "reject", from_user := some a.to_seller,
    to_user := some a.from_seller, agreement := none,
    notes := "Assignment rejected: " ++ phone.imei ++ " assignment from " ++
      usernameOf db a.from_seller ++ " to " ++ usernameOf db a.to_seller ++ " was rejected" }

/-- Model of `agreements/views.py` `approve_assignment_view` +
`PhoneAssignment.approve` (`agreements/models.py`): `get_object_or_404`
filters on the assignment id, `to_seller=request.user` and
`status='pending'`. -/
def approve_assignment_view (db : DB) (user : CustomUser) (assignment_id : Nat) : ViewResult :=
  match db.assignments.find? (fun a =>
      a.id == assignment_id && a.to_seller == user.id && decide (a.status = "pending")) with
  | none => ⟨db, .notFound, []⟩
  | some a =>
    match findPhone db a.phone with
    | none =>
      -- unreachable under foreign-key integrity (WF.assignPhoneFK):
      -- self.phone always resolves in Django
      ⟨db, .redirect "assignment_list", [.error "Error approving assignment"]⟩
    | some phone =>
      let db1 := updatePhone db { phone with current_owner := a.to_seller, status := "available" }
      let db2 := updateAssignment db1 { a with status := "approved" }
      let db3 := { db2 with histories := db2.histories ++ [approveHistoryRow db a phone] }
      ⟨db3, .redirect "assignment_list",
        [.success ("Assignment approved! " ++ phone.brand ++ " " ++ phone.model ++ " is now in your inventory.")]⟩

/-- Model of `agreements/views.py` `reject_assignment_view` + `PhoneAssignment.reject`:
the phone goes back to `available` with `current_owner` untouched. -/
def reject_assignment_view (db : DB) (user : CustomUser) (assignment_id : Nat) : ViewResult :=
  match db.assignments.find? (fun a =>
      a.id == assignment_id && a.to_seller == user.id && decide (a.status = "pending")) with
  | none => ⟨db, .notFound, []⟩
  | some a =>
    match findPhone db a.phone with
    | none =>
      ⟨db, .redirect "assignment_list", [.error "Error rejecting assignment"]⟩
    | some phone =>
      let db1 := updatePhone db { phone with status := "available" }
      let db2 := updateAssignment db1 { a with status := "rejected" }
      let db3 := { db2 with histories := db2.histories ++ [rejectHistoryRow db a phone] }
      ⟨db3, .redirect "assignment_list",
        [.info ("Assignment rejected. " ++ phone.brand ++ " " ++ phone.model ++ " returned.")]⟩

structure RegisterPost where
  username : String
  email : String
  first_name : String
  last_name : String
  phone_number : String
  password1 : String
  password2 : String
  deriving DecidableEq

/-- Model of `accounts/views.py` `register_view`, POST branch: `create_user` inserts a
seller account, then `user.suspend("New account pending manager approval")`
updates it. -/
def register_view (db : DB) (requestUser : Option CustomUser) (post : RegisterPost) : ViewResult :=
  match requestUser with
  | some _ => ⟨db, .redirect "home", []⟩
  | none =>
    if post.password1 ≠ post.password2 then
      ⟨db, .rendered "accounts/register.html", [.error "Passwords do not match."]⟩
    else if db.users.any (fun u => u.username == post.username) then
      ⟨db, .rendered "accounts/register.html", [.error "Username already exists."]⟩
    else if db.users.any (fun u => u.email == post.email) then
      ⟨db, .rendered "accounts/register.html", [.error "Email already exists."]⟩
    else if ¬ (pyStartsWith post.phone_number "+250" ∧ post.phone_number.toList.length = 13) then
      ⟨db, .rendered "accounts/register.html", [.error "Phone number must be in format +250XXXXXXXXX"]⟩
    else
      let u : CustomUser :=
        { id := db.nextUserId, username := post.username, email := post.email,
          role := some "seller", is_superuser := false, is_suspended := false,
          suspended_reason := "", suspended_by := none,
          first_name := post.first_name, last_name := post.last_name,
          phone_number := post.phone_number, address := "", national_id := "",
          hasSignature := false }
      let db1 := { db with users := db.users ++ [u], nextUserId := db.nextUserId + 1 }
      let db2 := updateUser db1 (u.suspend "New account pending manager approval" none)
      ⟨db2, .redirect "login",
        [.success "Account created successfully! Your account is pending approval. Please contact a manager to activate your account."]⟩

structure ProfilePost where
  first_name : String
  last_name : String
  email : String
  phone_number : String
  address : String
  national_id : String
  signatureUpload : Bool
  deriving DecidableEq

/-- Model of `accounts/views.py` `profile_view`, POST branch (`.strip()` is applied by
the caller producing the post record). -/
def profile_view (db : DB) (user : CustomUser) (post : ProfilePost) : ViewResult :=
  let u2 : CustomUser :=
    { user with first_name := post.first_name, last_name := post.last_name,
                email := post.email, phone_number := post.phone_number,
                address := post.address, national_id := post.national_id,
                hasSignature := if post.signatureUpload then true else user.hasSignature }
  ⟨updateUser db u2, .redirect "profile", [.success "Profile updated successfully!"]⟩

/-- Model of `accounts/views.py` `approve_seller_view`, POST branch. -/
def approve_seller_view (db : DB) (user : CustomUser) (user_id : Nat)
    (action : String) (reason : String) : ViewResult :=
  if ¬ (user.is_manager = true ∨ user.is_superuser = true) then
    ⟨db, .redirect "home", [.error "Access denied. Manager privileges required."]⟩
  else
    match db.users.find? (fun u2 => u2.id == user_id && decide (u2.role = some "seller")) with
    | none => ⟨db, .notFound, []⟩
    | some seller =>
      if action = "approve" then
        ⟨updateUser db seller.activate, .redirect "pending_sellers",
          [.success "Seller has been activated successfully!"]⟩
      else if action = "reject" then
        ⟨updateUser db (seller.suspend reason (some user.id)), .redirect "pending_sellers",
          [.warning "Seller has been rejected."]⟩
      else
        ⟨db, .redirect "pending_sellers", []⟩

/-- Model of `accounts/views.py` `toggle_seller_status_view`. -/
def toggle_seller_status_view (db : DB) (user : CustomUser) (user_id : Nat)
    (reason : String) : ViewResult :=
  if ¬ (user.is_manager = true ∨ user.is_superuser = true) then
    ⟨db, .redirect "home", [.error "Access denied. Manager privileges required."]⟩
  else
    match db.users.find? (fun u2 => u2.id == user_id && decide (u2.role = some "seller")) with
    | none => ⟨db, .notFound, []⟩
    | some seller =>
      if seller.is_suspended then
        ⟨updateUser db seller.activate, .redirect "manage_sellers",
          [.success "Seller has been activated."]⟩
      else
        ⟨updateUser db (seller.suspend reason (some user.id)), .redirect "manage_sellers",
          [.warning "Seller has been suspended."]⟩

/-- Model of `agreements/views.py` `phone_create_view`, POST branch (stale, unrouted):
`Phone.objects.create` passes `imei_number`, `storage_capacity` and `notes`,
none of which is a Phone field, so Django raises `TypeError` before any row
exists — there is no success continuation to model. -/
def phone_create_view (db : DB) (_user : CustomUser) : ViewResult :=
  if phone_create_kwargs.all (fun k => phoneFieldNames.contains k) then
    ⟨db, .rendered "agreements/phone_form.html", []⟩
  else
    ⟨db, .rendered "agreements/phone_form.html", [.error "Error adding phone: TypeError"]⟩

structure PhoneUpdatePost where
  brand : String
  model : String
  color : String
  purchase_price : Option Rat
  deriving DecidableEq

/-- Model of `agreements/views.py` `phone_update_view`, POST branch (stale, unrouted).
`storage_capacity` and `notes` are set as plain Python attributes (not model
fields) and are NOT persisted by `phone.save()`; the history `create` then
raises `TypeError` (`description`, `performed_by`), caught after the phone
UPDATE has committed.  `status` is never touched. -/
def phone_update_view (db : DB) (user : CustomUser) (pk : Nat) (post : PhoneUpdatePost) :
    ViewResult :=
  match findPhone db pk with
  | none => ⟨db, .notFound, []⟩
  | some phone =>
    if ¬ (user.id = phone.current_owner ∨ user.is_manager = true ∨ user.is_superuser = true) then
      ⟨db, .redirect "phone_detail", [.error "You do not have permission to edit this phone."]⟩
    else
      let db1 := updatePhone db
        { phone with brand := post.brand, model := post.model, color := post.color,
                     purchase_price := post.purchase_price }
      if phone_update_history_kwargs.all (fun k => phoneHistoryFieldNames.contains k) then
        ⟨db1, .redirect "phone_detail", [.success "Phone updated successfully!"]⟩
      else
        ⟨db1, .rendered "agreements/phone_form.html", [.error "Error updating phone: TypeError"]⟩

structure AgreementCreatePost where
  phone : Option Nat
  deriving DecidableEq

/-- Model of `agreements/views.py` `agreement_create_view`, POST branch (stale,
unrouted): `Agreement.objects.create` passes `buyer_name`, `agreed_price`, …,
none of which is an Agreement field — `TypeError` before any write.  The
availability guard precedes the create. -/
def agreement_create_view (db : DB) (_user : CustomUser) (post : AgreementCreatePost) :
    ViewResult :=
  match post.phone.bind (findPhone db) with
  | none =>
    -- get_object_or_404 raised inside the try block: caught as a flash error
    ⟨db, .rendered "agreements/agreement_create.html", [.error "Error creating agreement: Http404"]⟩
  | some phone =>
    if phone.status ≠ "available" then
      ⟨db, .redirect "agreement_create", [.error "Selected phone is not available."]⟩
    else if agreement_create_kwargs.all (fun k => agreementFieldNames.contains k) then
      ⟨db, .rendered "agreements/agreement_create.html", []⟩
    else
      ⟨db, .rendered "agreements/agreement_create.html", [.error "Error creating agreement: TypeError"]⟩

/-- Model of `sales/views.py` `target_create_view`, POST branch: `SalesTarget.objects.
create` passes `period_type` and `description`, not SalesTarget fields —
`TypeError` before any write. -/
def target_create_view (db : DB) (user : CustomUser) (seller_id : Option Nat) : ViewResult :=
  if ¬ (user.is_manager = true ∨ user.is_superuser = true) then
    ⟨db, .redirect "target_list", [.error "Only managers can create sales targets."]⟩
  else
    match seller_id with
    | none =>
      -- seller=None; the create call still raises TypeError on its kwargs
      if target_create_kwargs.all (fun k => salesTargetFieldNames.contains k) then
        ⟨db, .redirect "target_list", [.success "Sales target created successfully!"]⟩
      else
        ⟨db, .rendered "sales/target_form.html", [.error "Error creating target: TypeError"]⟩
    | some sid =>
      match db.users.find? (fun u2 => u2.id == sid && decide (u2.role = some "seller")) with
      | none => ⟨db, .notFound, []⟩
      | some _seller =>
        if target_create_kwargs.all (fun k => salesTargetFieldNames.contains k) then
          ⟨db, .redirect "target_list", [.success "Sales target created successfully!"]⟩
        else
          ⟨db, .rendered "sales/target_form.html", [.error "Error creating target: TypeError"]⟩

/-! ### The exposed state-mutating operations

Every view of the three url configurations that writes to a table modelled
here appears as one `Op` constructor; the remaining routed views (login,
logout, hold, home, profile GET, the list/detail/dashboard/report pages and
the PDF export) only read.  The stale unrouted views are included as well —
the claims quantify over them. -/

inductive Op where
  | register (requestUser : Option CustomUser) (post : RegisterPost)
  | profileUpdate (user : CustomUser) (post : ProfilePost)
  | approveSeller (user : CustomUser) (user_id : Nat) (action reason : String)
  | toggleSeller (user : CustomUser) (user_id : Nat) (reason : String)
  | phoneCreate (user : CustomUser)
  | phoneUpdate (user : CustomUser) (pk : Nat) (post : PhoneUpdatePost)
  | agreementCreate (user : CustomUser) (post : AgreementCreatePost)
  | buyPhone (user : CustomUser) (post : BuyPost)
  | sellPhone (user : CustomUser) (phone_id : Nat) (post : SellPost)
  | phoneAssign (user : CustomUser) (pk : Nat) (post : PhoneAssignPost)
  | assignPhone (user : CustomUser) (phone_id : Nat) (post : AssignPost)
  | approveAssignment (user : CustomUser) (assignment_id : Nat)
  | rejectAssignment (user : CustomUser) (assignment_id : Nat)
  | targetCreate (user : CustomUser) (seller_id : Option Nat)

def Op.apply : Op → DB → ViewResult
  | .register ru post, db => register_view db ru post
  | .profileUpdate user post, db => profile_view db user post
  | .approveSeller user uid action reason, db => approve_seller_view db user uid action reason
  | .toggleSeller user uid reason, db => toggle_seller_status_view db user uid reason
  | .phoneCreate user, db => phone_create_view db user
  | .phoneUpdate user pk post, db => phone_update_view db user pk post
  | .agreementCreate user post, db => agreement_create_view db user post
  | .buyPhone user post, db => buy_phone_view db user post
  | .sellPhone user pid post, db => sell_phone_view db user pid post
  | .phoneAssign user pk post, db => phone_assign_view db user pk post
  | .assignPhone user pid post, db => assign_phone_view db user pid post
  | .approveAssignment user aid, db => approve_assignment_view db user aid
  | .rejectAssignment user aid, db => reject_assignment_view db user aid
  | .targetCreate user sid, db => target_create_view db user sid

/-- Database after one request. -/
def step (op : Op) (db : DB) : DB := (op.apply db).db

/-- Database after a sequence of requests. -/
def steps (ops : List Op) (db : DB) : DB := ops.foldl (fun d o => step o d) db

/-! ### Well-formed database states

`WF` collects what the schema (auto primary keys, foreign keys) and the
reachable-state discipline of the application guarantee: primary keys are
unique and below the auto-increment counters, assignments reference existing
phones, a pending assignment's phone is in status `assigned`, and no two
distinct pending assignments share a phone. -/

def WF (db : DB) : Prop :=
  (∀ u ∈ db.users, u.id < db.nextUserId) ∧
  (∀ p ∈ db.phones, p.id < db.nextPhoneId) ∧
  (∀ a ∈ db.assignments, a.id < db.nextAssignmentId) ∧
  (db.phones.map Phone.id).Nodup ∧
  (db.assignments.map PhoneAssignment.id).Nodup ∧
  (∀ a ∈ db.assignments, ∃ p ∈ db.phones, p.id = a.phone) ∧
  (∀ a ∈ db.assignments, a.status = "pending" →
    ∀ p ∈ db.phones, p.id = a.phone → p.status = "assigned") ∧
  (∀ a ∈ db.assignments, ∀ b ∈ db.assignments,
    a.status = "pending" → b.status = "pending" → a.phone = b.phone → a.id = b.id)

/-! ### Generic lemmas about keyed updates -/

theorem map_key_updateByKey {α : Type} (key : α → Nat) (x : α) (l : List α) :
    (updateByKey key x l).map key = l.map key := by
  unfold updateByKey
  rw [List.map_map]
  apply List.map_congr_left
  intro y _
  by_cases h : key y = key x <;> simp [h]

theorem mem_updateByKey_of_ne {α : Type} (key : α → Nat) (x y : α) (l : List α)
    (hy : y ∈ l) (hne : key y ≠ key x) : y ∈ updateByKey key x l := by
  unfold updateByKey
  exact List.mem_map.mpr ⟨y, hy, by simp [hne]⟩

theorem mem_updateByKey_self {α : Type} (key : α → Nat) (x y : α) (l : List α)
    (hy : y ∈ l) (hk : key y = key x) : x ∈ updateByKey key x l := by
  unfold updateByKey
  exact List.mem_map.mpr ⟨y, hy, by simp [hk]⟩

theorem of_mem_updateByKey {α : Type} (key : α → Nat) (x z : α) (l : List α)
    (hz : z ∈ updateByKey key x l) :
    (z = x ∧ ∃ y ∈ l, key y = key x) ∨ (z ∈ l ∧ key z ≠ key x) := by
  unfold updateByKey at hz
  obtain ⟨y, hy, hzy⟩ := List.mem_map.mp hz
  by_cases h : key y = key x
  · simp only [if_pos h] at hzy
    exact Or.inl ⟨hzy.symm, y, hy, h⟩
  · simp only [if_neg h] at hzy
    exact Or.inr ⟨hzy ▸ hy, hzy ▸ h⟩

theorem nodup_map_inj {α : Type} (key : α → Nat) (l : List α)
    (h : (l.map key).Nodup) (y z : α) (hy : y ∈ l) (hz : z ∈ l)
    (hk : key y = key z) : y = z :=
  List.inj_on_of_nodup_map h hy hz hk

@[simp] theorem updatePhone_users (db : DB) (p : Phone) : (updatePhone db p).users = db.users := rfl
@[simp] theorem updatePhone_agreements (db : DB) (p : Phone) :
    (updatePhone db p).agreements = db.agreements := rfl
@[simp] theorem updatePhone_histories (db : DB) (p : Phone) :
    (updatePhone db p).histories = db.histories := rfl
@[simp] theorem updatePhone_assignments (db : DB) (p : Phone) :
    (updatePhone db p).assignments = db.assignments := rfl
@[simp] theorem updatePhone_transactions (db : DB) (p : Phone) :
    (updatePhone db p).transactions = db.transactions := rfl
@[simp] theorem updatePhone_phones (db : DB) (p : Phone) :
    (updatePhone db p).phones = updateByKey Phone.id p db.phones := rfl

@[simp] theorem updateUser_phones (db : DB) (u : CustomUser) : (updateUser db u).phones = db.phones := rfl
@[simp] theorem updateUser_assignments (db : DB) (u : CustomUser) :
    (updateUser db u).assignments = db.assignments := rfl
@[simp] theorem updateUser_histories (db : DB) (u : CustomUser) :
    (updateUser db u).histories = db.histories := rfl
@[simp] theorem updateUser_users (db : DB) (u : CustomUser) :
    (updateUser db u).users = updateByKey CustomUser.id u db.users := rfl

@[simp] theorem updateAssignment_phones (db : DB) (a : PhoneAssignment) :
    (updateAssignment db a).phones = db.phones := rfl
@[simp] theorem updateAssignment_users (db : DB) (a : PhoneAssignment) :
    (updateAssignment db a).users = db.users := rfl
@[simp] theorem updateAssignment_histories (db : DB) (a : PhoneAssignment) :
    (updateAssignment db a).histories = db.histories := rfl
@[simp] theorem updateAssignment_assignments (db : DB) (a : PhoneAssignment) :
    (updateAssignment db a).assignments = updateByKey PhoneAssignment.id a db.assignments := rfl

@[simp] theorem updateAgreement_phones (db : DB) (a : Agreement) :
    (updateAgreement db a).phones = db.phones := rfl
@[simp] theorem updateAgreement_users (db : DB) (a : Agreement) :
    (updateAgreement db a).users = db.users := rfl
@[simp] theorem updateAgreement_assignments (db : DB) (a : Agreement) :
    (updateAgreement db a).assignments = db.assignments := rfl
@[simp] theorem updateAgreement_histories (db : DB) (a : Agreement) :
    (updateAgreement db a).histories = db.histories := rfl
@[simp] theorem updateAgreement_nextUserId (db : DB) (a : Agreement) :
    (updateAgreement db a).nextUserId = db.nextUserId := rfl
@[simp] theorem updateAgreement_nextPhoneId (db : DB) (a : Agreement) :
    (updateAgreement db a).nextPhoneId = db.nextPhoneId := rfl
@[simp] theorem updateAgreement_nextAssignmentId (db : DB) (a : Agreement) :
    (updateAgreement db a).nextAssignmentId = db.nextAssignmentId := rfl
@[simp] theorem updatePhone_nextUserId (db : DB) (p : Phone) :
    (updatePhone db p).nextUserId = db.nextUserId := rfl
@[simp] theorem updatePhone_nextPhoneId (db : DB) (p : Phone) :
    (updatePhone db p).nextPhoneId = db.nextPhoneId := rfl
@[simp] theorem updatePhone_nextAssignmentId (db : DB) (p : Phone) :
    (updatePhone db p).nextAssignmentId = db.nextAssignmentId := rfl
@[simp] theorem updateUser_nextUserId (db : DB) (u : CustomUser) :
    (updateUser db u).nextUserId = db.nextUserId := rfl
@[simp] theorem updateUser_nextPhoneId (db : DB) (u : CustomUser) :
    (updateUser db u).nextPhoneId = db.nextPhoneId := rfl
@[simp] theorem updateUser_nextAssignmentId (db : DB) (u : CustomUser) :
    (updateUser db u).nextAssignmentId = db.nextAssignmentId := rfl
@[simp] theorem updateAssignment_nextUserId (db : DB) (a : PhoneAssignment) :
    (updateAssignment db a).nextUserId = db.nextUserId := rfl
@[simp] theorem updateAssignment_nextPhoneId (db : DB) (a : PhoneAssignment) :
    (updateAssignment db a).nextPhoneId = db.nextPhoneId := rfl
@[simp] theorem updateAssignment_nextAssignmentId (db : DB) (a : PhoneAssignment) :
    (updateAssignment db a).nextAssignmentId = db.nextAssignmentId := rfl

instance (db : DB) : Decidable (WF db) := by unfold WF; infer_instance

/-! ### Per-request safety

`StepOk db db'` bundles what one request preserves: well-formedness, the
history table extended only by appending, every sold phone still sold, and
every non-pending assignment's status untouched. -/

def StepOk (db db' : DB) : Prop :=
  (WF db → WF db') ∧
  db.histories <+: db'.histories ∧
  (WF db → ∀ p ∈ db.phones, p.status = "sold" →
      ∃ q ∈ db'.phones, q.id = p.id ∧ q.status = "sold") ∧
  (WF db → ∀ a ∈ db.assignments, a.status ≠ "pending" →
      ∃ b ∈ db'.assignments, b.id = a.id ∧ b.status = a.status)

theorem StepOk_refl (db : DB) : StepOk db db :=
  ⟨id, List.prefix_refl _, fun _ p hp hs => ⟨p, hp, rfl, hs⟩,
   fun _ a ha _ => ⟨a, ha, rfl, rfl⟩⟩

theorem StepOk_trans (db1 db2 db3 : DB) (h12 : StepOk db1 db2) (h23 : StepOk db2 db3) :
    StepOk db1 db3 := by
  obtain ⟨w12, p12, s12, a12⟩ := h12
  obtain ⟨w23, p23, s23, a23⟩ := h23
  refine ⟨fun h => w23 (w12 h), p12.trans p23, ?_, ?_⟩
  · intro h p hp hs
    obtain ⟨q, hq, hqid, hqs⟩ := s12 h p hp hs
    obtain ⟨r, hr, hrid, hrs⟩ := s23 (w12 h) q hq hqs
    exact ⟨r, hr, hrid.trans hqid, hrs⟩
  · intro h a ha hs
    obtain ⟨b, hb, hbid, hbs⟩ := a12 h a ha hs
    obtain ⟨c, hc, hcid, hcs⟩ := a23 (w12 h) b hb (fun hbp => hs (hbs ▸ hbp))
    exact ⟨c, hc, hcid.trans hbid, hcs.trans hbs⟩

theorem WF_frame (db db' : DB) (h : WF db)
    (h1 : db'.users = db.users) (h2 : db'.phones = db.phones)
    (h3 : db'.assignments = db.assignments)
    (h4 : db'.nextUserId = db.nextUserId) (h5 : db'.nextPhoneId = db.nextPhoneId)
    (h6 : db'.nextAssignmentId = db.nextAssignmentId) : WF db' := by
  unfold WF at h ⊢
  rw [h1, h2, h3, h4, h5, h6]
  exact h

/-- A request that touches none of users/phones/assignments and only appends
to the history table. -/
theorem StepOk_frame (db db' : DB)
    (h1 : db'.users = db.users) (h2 : db'.phones = db.phones)
    (h3 : db'.assignments = db.assignments)
    (h4 : db'.nextUserId = db.nextUserId) (h5 : db'.nextPhoneId = db.nextPhoneId)
    (h6 : db'.nextAssignmentId = db.nextAssignmentId)
    (h7 : db.histories <+: db'.histories) : StepOk db db' := by
  refine ⟨fun h => WF_frame db db' h h1 h2 h3 h4 h5 h6, h7, ?_, ?_⟩
  · intro _ p hp hs
    exact ⟨p, h2 ▸ hp, rfl, hs⟩
  · intro _ a ha _
    exact ⟨a, h3 ▸ ha, rfl, rfl⟩

/-- Updating one user row (`request.user.save()` and the manager
suspend/activate actions). -/
theorem StepOk_updateUser (db : DB) (u : CustomUser) : StepOk db (updateUser db u) := by
  refine ⟨?_, by simp, ?_, ?_⟩
  · intro h
    unfold WF at h ⊢
    obtain ⟨w1, w2, w3, w4, w5, w6, w7, w8⟩ := h
    refine ⟨?_, w2, w3, w4, w5, w6, w7, w8⟩
    intro v hv
    simp only [updateUser_users] at hv
    rcases of_mem_updateByKey _ _ _ _ hv with ⟨rfl, y, hy, hk⟩ | ⟨hv', _⟩
    · exact hk ▸ w1 y hy
    · exact w1 v hv'
  · intro _ p hp hs
    exact ⟨p, by simpa using hp, rfl, hs⟩
  · intro _ a ha _
    exact ⟨a, by simpa using ha, rfl, rfl⟩

/-- StepOk for `register_view`'s write pair: INSERT a fresh user, then UPDATE it. -/
theorem StepOk_register (db : DB) (u u2 : CustomUser) (hid : u.id = db.nextUserId)
    (hid2 : u2.id = u.id) :
    StepOk db (updateUser { db with users := db.users ++ [u],
                                    nextUserId := db.nextUserId + 1 } u2) := by
  refine StepOk_trans db { db with users := db.users ++ [u], nextUserId := db.nextUserId + 1 } _
    ?_ (StepOk_updateUser _ u2)
  refine ⟨?_, by simp, ?_, ?_⟩
  · intro h
    unfold WF at h ⊢
    obtain ⟨w1, w2, w3, w4, w5, w6, w7, w8⟩ := h
    refine ⟨?_, w2, w3, w4, w5, w6, w7, w8⟩
    intro v hv
    simp only [List.mem_append, List.mem_singleton] at hv
    rcases hv with hv | rfl
    · exact Nat.lt_succ_of_lt (w1 v hv)
    · rw [hid]
      exact Nat.lt_succ_self _
  · intro _ p hp hs
    exact ⟨p, hp, rfl, hs⟩
  · intro _ a ha _
    exact ⟨a, ha, rfl, rfl⟩

/-- StepOk for `buy_phone_view`'s first write: INSERT a fresh phone. -/
theorem StepOk_appendPhone (db : DB) (p : Phone) (hid : p.id = db.nextPhoneId) :
    StepOk db { db with phones := db.phones ++ [p],
                        nextPhoneId := db.nextPhoneId + 1 } := by
  refine ⟨?_, by simp, ?_, ?_⟩
  · intro h
    unfold WF at h ⊢
    obtain ⟨w1, w2, w3, w4, w5, w6, w7, w8⟩ := h
    refine ⟨w1, ?_, w3, ?_, w5, ?_, ?_, w8⟩
    · intro q hq
      rcases List.mem_append.mp hq with hq | hq
      · exact Nat.lt_succ_of_lt (w2 q hq)
      · simp only [List.mem_singleton] at hq
        subst hq
        rw [hid]
        exact Nat.lt_succ_self _
    · rw [List.map_append]
      refine List.Nodup.append w4 (List.nodup_singleton _) ?_
      intro x hx hx'
      simp only [List.map_cons, List.map_nil, List.mem_singleton] at hx'
      obtain ⟨q, hq, hqx⟩ := List.mem_map.mp hx
      have hlt := w2 q hq
      rw [hqx, hx', hid] at hlt
      exact absurd hlt (Nat.lt_irrefl _)
    · intro a ha
      obtain ⟨q, hq, hqa⟩ := w6 a ha
      exact ⟨q, List.mem_append_left _ hq, hqa⟩
    · intro a ha hpend q hq hqid
      rcases List.mem_append.mp hq with hq | hq
      · exact w7 a ha hpend q hq hqid
      · simp only [List.mem_singleton] at hq
        subst hq
        obtain ⟨r, hr, hra⟩ := w6 a ha
        have hlt := w2 r hr
        rw [hra, ← hqid, hid] at hlt
        exact absurd hlt (Nat.lt_irrefl _)
  · intro _ q hq hs
    exact ⟨q, List.mem_append_left _ hq, rfl, hs⟩
  · intro _ a ha _
    exact ⟨a, ha, rfl, rfl⟩

/-- Updating one phone row whose current status is `available` (the
`sell_phone_view` status flip; by `WF` no pending assignment can reference
such a phone). -/
theorem StepOk_updatePhone_avail (db : DB) (phone p' : Phone) (hmem : phone ∈ db.phones)
    (hid : p'.id = phone.id) (hav : phone.status = "available") :
    StepOk db (updatePhone db p') := by
  refine ⟨?_, by simp, ?_, ?_⟩
  · intro h
    unfold WF at h ⊢
    obtain ⟨w1, w2, w3, w4, w5, w6, w7, w8⟩ := h
    refine ⟨w1, ?_, w3, ?_, w5, ?_, ?_, w8⟩
    · intro q hq
      simp only [updatePhone_phones] at hq
      rcases of_mem_updateByKey _ _ _ _ hq with ⟨rfl, y, hy, hk⟩ | ⟨hq', _⟩
      · exact hk ▸ w2 y hy
      · exact w2 q hq'
    · simp only [updatePhone_phones]
      rw [map_key_updateByKey]
      exact w4
    · intro a ha
      obtain ⟨q, hq, hqa⟩ := w6 a ha
      by_cases hcase : q.id = p'.id
      · refine ⟨p', mem_updateByKey_self Phone.id p' q db.phones hq hcase, ?_⟩
        rw [hcase] at hqa
        exact hqa
      · exact ⟨q, mem_updateByKey_of_ne Phone.id p' q db.phones hq hcase, hqa⟩
    · intro a ha hpend q hq hqid
      simp only [updatePhone_phones] at hq
      rcases of_mem_updateByKey _ _ _ _ hq with ⟨rfl, y, hy, hk⟩ | ⟨hq', _⟩
      · -- the updated phone is the one the pending assignment references:
        -- impossible, the referenced phone would be `assigned`, ours is
        -- `available`
        have hphone : phone.id = a.phone := by rw [← hid, hqid]
        have := w7 a ha hpend phone hmem hphone
        rw [hav] at this
        exact absurd this (by decide)
      · exact w7 a ha hpend q hq' hqid
  · intro h p hp hs
    obtain ⟨_, _, _, w4, _, _, _, _⟩ := h
    by_cases hcase : p.id = phone.id
    · have : p = phone := nodup_map_inj Phone.id db.phones w4 p phone hp hmem hcase
      rw [this, hav] at hs
      exact absurd hs (by decide)
    · refine ⟨p, ?_, rfl, hs⟩
      simp only [updatePhone_phones]
      exact mem_updateByKey_of_ne Phone.id p' p db.phones hp (by rw [hid]; exact hcase)
  · intro _ a ha _
    exact ⟨a, by simpa using ha, rfl, rfl⟩

/-- Updating one phone row without touching its status
(`phone_update_view`). -/
theorem StepOk_updatePhone_samestatus (db : DB) (phone p' : Phone)
    (hmem : phone ∈ db.phones) (hid : p'.id = phone.id)
    (hst : p'.status = phone.status) :
    StepOk db (updatePhone db p') := by
  refine ⟨?_, by simp, ?_, ?_⟩
  · intro h
    unfold WF at h ⊢
    obtain ⟨w1, w2, w3, w4, w5, w6, w7, w8⟩ := h
    refine ⟨w1, ?_, w3, ?_, w5, ?_, ?_, w8⟩
    · intro q hq
      simp only [updatePhone_phones] at hq
      rcases of_mem_updateByKey _ _ _ _ hq with ⟨rfl, y, hy, hk⟩ | ⟨hq', _⟩
      · exact hk ▸ w2 y hy
      · exact w2 q hq'
    · simp only [updatePhone_phones]
      rw [map_key_updateByKey]
      exact w4
    · intro a ha
      obtain ⟨q, hq, hqa⟩ := w6 a ha
      by_cases hcase : q.id = p'.id
      · refine ⟨p', mem_updateByKey_self Phone.id p' q db.phones hq hcase, ?_⟩
        rw [hcase] at hqa
        exact hqa
      · exact ⟨q, mem_updateByKey_of_ne Phone.id p' q db.phones hq hcase, hqa⟩
    · intro a ha hpend q hq hqid
      simp only [updatePhone_phones] at hq
      rcases of_mem_updateByKey _ _ _ _ hq with ⟨rfl, y, hy, hk⟩ | ⟨hq', _⟩
      · have hphone : phone.id = a.phone := by rw [← hid, hqid]
        have := w7 a ha hpend phone hmem hphone
        rw [hst]
        exact this
      · exact w7 a ha hpend q hq' hqid
  · intro h p hp hs
    obtain ⟨_, _, _, w4, _, _, _, _⟩ := h
    by_cases hcase : p.id = phone.id
    · have hpp : p = phone := nodup_map_inj Phone.id db.phones w4 p phone hp hmem hcase
      refine ⟨p', ?_, by rw [hid, ← hcase], by rw [hst, ← hpp]; exact hs⟩
      simp only [updatePhone_phones]
      exact mem_updateByKey_self Phone.id p' p db.phones hp (by rw [hid]; exact hcase)
    · refine ⟨p, ?_, rfl, hs⟩
      simp only [updatePhone_phones]
      exact mem_updateByKey_of_ne Phone.id p' p db.phones hp (by rw [hid]; exact hcase)
  · intro _ a ha _
    exact ⟨a, by simpa using ha, rfl, rfl⟩

/-- StepOk for `assign_phone_view`'s write pair: INSERT a fresh pending assignment and
flip the (available) phone to `assigned`. -/
theorem StepOk_assign (db : DB) (phone : Phone) (a : PhoneAssignment)
    (hmem : phone ∈ db.phones) (hav : phone.status = "available")
    (haid : a.id = db.nextAssignmentId) (haphone : a.phone = phone.id)
    (hastatus : a.status = "pending") :
    StepOk db (updatePhone { db with assignments := db.assignments ++ [a],
                                     nextAssignmentId := db.nextAssignmentId + 1 }
               { phone with status := "assigned" }) := by
  refine ⟨?_, by simp, ?_, ?_⟩
  · intro h
    unfold WF at h ⊢
    obtain ⟨w1, w2, w3, w4, w5, w6, w7, w8⟩ := h
    refine ⟨w1, ?_, ?_, ?_, ?_, ?_, ?_, ?_⟩
    · intro q hq
      simp only [updatePhone_phones] at hq
      rcases of_mem_updateByKey _ _ _ _ hq with ⟨rfl, y, hy, hk⟩ | ⟨hq', _⟩
      · exact hk ▸ w2 y hy
      · exact w2 q hq'
    · intro b hb
      simp only [updatePhone_assignments, List.mem_append, List.mem_singleton] at hb
      rcases hb with hb | rfl
      · exact Nat.lt_succ_of_lt (w3 b hb)
      · rw [haid]
        exact Nat.lt_succ_self _
    · simp only [updatePhone_phones]
      rw [map_key_updateByKey]
      exact w4
    · simp only [updatePhone_assignments]
      rw [List.map_append]
      refine List.Nodup.append w5 (List.nodup_singleton _) ?_
      intro x hx hx'
      simp only [List.map_cons, List.map_nil, List.mem_singleton] at hx'
      obtain ⟨b, hb, hbx⟩ := List.mem_map.mp hx
      have hlt := w3 b hb
      rw [hbx, hx', haid] at hlt
      exact absurd hlt (Nat.lt_irrefl _)
    · intro b hb
      simp only [updatePhone_assignments, List.mem_append, List.mem_singleton] at hb
      rcases hb with hb | rfl
      · obtain ⟨q, hq, hqb⟩ := w6 b hb
        by_cases hcase : q.id = phone.id
        · refine ⟨{ phone with status := "assigned" },
            mem_updateByKey_self Phone.id _ q db.phones hq hcase, ?_⟩
          simpa [hcase] using hqb
        · exact ⟨q, mem_updateByKey_of_ne Phone.id _ q db.phones hq hcase, hqb⟩
      · refine ⟨{ phone with status := "assigned" },
          mem_updateByKey_self Phone.id _ phone db.phones hmem rfl, ?_⟩
        simpa using haphone.symm
    · intro b hb hpend q hq hqid
      simp only [updatePhone_assignments, List.mem_append, List.mem_singleton] at hb
      simp only [updatePhone_phones] at hq
      rcases hb with hb | rfl
      · -- an old pending assignment: either it references the freshly updated
        -- phone (whose status is now literally "assigned") or an untouched one
        rcases of_mem_updateByKey _ _ _ _ hq with ⟨rfl, y, hy, hk⟩ | ⟨hq', _⟩
        · rfl
        · exact w7 b hb hpend q hq' hqid
      · -- the fresh assignment references the updated phone
        rcases of_mem_updateByKey _ _ _ _ hq with ⟨rfl, y, hy, hk⟩ | ⟨hq', hqne⟩
        · rfl
        · exact absurd (by rw [hqid, haphone]) hqne
    · intro b hb c hc hbp hcp hbc
      simp only [updatePhone_assignments, List.mem_append, List.mem_singleton] at hb hc
      rcases hb with hb | rfl <;> rcases hc with hc | rfl
      · exact w8 b hb c hc hbp hcp hbc
      · -- old pending b sharing the fresh assignment's phone: impossible,
        -- that phone was available
        have := w7 b hb hbp phone hmem (by rw [← haphone, hbc])
        rw [hav] at this
        exact absurd this (by decide)
      · have := w7 c hc hcp phone hmem (by rw [← haphone, ← hbc])
        rw [hav] at this
        exact absurd this (by decide)
      · rfl
  · intro h p hp hs
    obtain ⟨_, _, _, w4, _, _, _, _⟩ := h
    by_cases hcase : p.id = phone.id
    · have : p = phone := nodup_map_inj Phone.id db.phones w4 p phone hp hmem hcase
      rw [this, hav] at hs
      exact absurd hs (by decide)
    · refine ⟨p, ?_, rfl, hs⟩
      simp only [updatePhone_phones]
      exact mem_updateByKey_of_ne Phone.id _ p db.phones hp hcase
  · intro _ b hb _
    refine ⟨b, ?_, rfl, rfl⟩
    simp only [updatePhone_assignments]
    exact List.mem_append_left _ hb

/-- StepOk for `PhoneAssignment.approve` / `.reject`: flip the phone back (owner change
or not is irrelevant here) and close the pending assignment. -/
theorem StepOk_resolve (db : DB) (a : PhoneAssignment) (phone p' : Phone)
    (hamem : a ∈ db.assignments) (hpend : a.status = "pending")
    (hpmem : phone ∈ db.phones) (hpid : phone.id = a.phone)
    (hp'id : p'.id = phone.id) (ns : String) (hns : ns ≠ "pending") :
    StepOk db (updateAssignment (updatePhone db p') { a with status := ns }) := by
  refine ⟨?_, by simp, ?_, ?_⟩
  · intro h
    unfold WF at h ⊢
    obtain ⟨w1, w2, w3, w4, w5, w6, w7, w8⟩ := h
    refine ⟨w1, ?_, ?_, ?_, ?_, ?_, ?_, ?_⟩
    · intro q hq
      simp only [updateAssignment_phones, updatePhone_phones] at hq
      rcases of_mem_updateByKey _ _ _ _ hq with ⟨rfl, y, hy, hk⟩ | ⟨hq', _⟩
      · exact hk ▸ w2 y hy
      · exact w2 q hq'
    · intro b hb
      simp only [updateAssignment_assignments] at hb
      rcases of_mem_updateByKey _ _ _ _ hb with ⟨rfl, y, hy, hk⟩ | ⟨hb', _⟩
      · exact hk ▸ w3 y (by simpa using hy)
      · exact w3 b (by simpa using hb')
    · simp only [updateAssignment_phones, updatePhone_phones]
      rw [map_key_updateByKey]
      exact w4
    · simp only [updateAssignment_assignments, updatePhone_assignments]
      rw [map_key_updateByKey]
      exact w5
    · intro b hb
      simp only [updateAssignment_assignments, updatePhone_assignments] at hb
      simp only [updateAssignment_phones, updatePhone_phones]
      have hbphone : ∃ q ∈ db.phones, q.id = b.phone := by
        rcases of_mem_updateByKey _ _ _ _ hb with ⟨rfl, y, hy, hk⟩ | ⟨hb', _⟩
        · exact w6 a hamem
        · exact w6 b hb'
      obtain ⟨q, hq, hqb⟩ := hbphone
      by_cases hcase : q.id = p'.id
      · refine ⟨p', mem_updateByKey_self Phone.id p' q db.phones hq hcase, ?_⟩
        rw [hcase] at hqb
        exact hqb
      · exact ⟨q, mem_updateByKey_of_ne Phone.id p' q db.phones hq hcase, hqb⟩
    · intro b hb hbp q hq hqid
      simp only [updateAssignment_assignments, updatePhone_assignments] at hb
      simp only [updateAssignment_phones, updatePhone_phones] at hq
      rcases of_mem_updateByKey _ _ _ _ hb with ⟨rfl, y, hy, hk⟩ | ⟨hb', hbne⟩
      · exact absurd hbp hns
      · -- b is an old pending assignment different from a
        rcases of_mem_updateByKey _ _ _ _ hq with ⟨rfl, z, hz, hzk⟩ | ⟨hq', _⟩
        · -- it would reference the resolved phone: then by uniqueness it is a
          have : b.id = a.id := by
            refine w8 b hb' a hamem hbp hpend ?_
            rw [← hqid, hp'id, hpid]
          exact absurd this hbne
        · exact w7 b hb' hbp q hq' hqid
    · intro b hb c hc hbp hcp hbc
      simp only [updateAssignment_assignments, updatePhone_assignments] at hb hc
      rcases of_mem_updateByKey _ _ _ _ hb with ⟨rfl, y, hy, hk⟩ | ⟨hb', _⟩
      · exact absurd hbp hns
      · rcases of_mem_updateByKey _ _ _ _ hc with ⟨rfl, z, hz, hzk⟩ | ⟨hc', _⟩
        · exact absurd hcp hns
        · exact w8 b hb' c hc' hbp hcp hbc
  · intro h p hp hs
    obtain ⟨_, _, _, w4, _, _, w7, _⟩ := h
    by_cases hcase : p.id = phone.id
    · have hpp : p = phone := nodup_map_inj Phone.id db.phones w4 p phone hp hpmem hcase
      have := w7 a hamem hpend phone hpmem hpid
      rw [← hpp, hs] at this
      exact absurd this (by decide)
    · refine ⟨p, ?_, rfl, hs⟩
      simp only [updateAssignment_phones, updatePhone_phones]
      exact mem_updateByKey_of_ne Phone.id p' p db.phones hp (by rw [hp'id]; exact hcase)
  · intro h b hb hbs
    obtain ⟨_, _, _, _, w5, _, _, _⟩ := h
    by_cases hcase : b.id = a.id
    · have : b = a := nodup_map_inj PhoneAssignment.id db.assignments w5 b a hb hamem hcase
      rw [this] at hbs
      exact absurd hpend hbs
    · refine ⟨b, ?_, rfl, rfl⟩
      simp only [updateAssignment_assignments, updatePhone_assignments]
      exact mem_updateByKey_of_ne PhoneAssignment.id _ b db.assignments hb hcase

/-! ### Every exposed operation satisfies `StepOk` -/

theorem register_StepOk (db : DB) (ru : Option CustomUser) (post : RegisterPost) :
    StepOk db (register_view db ru post).db := by
  unfold register_view
  split
  · exact StepOk_refl db
  · split
    · exact StepOk_refl db
    · split
      · exact StepOk_refl db
      · split
        · exact StepOk_refl db
        · split
          · exact StepOk_refl db
          · exact StepOk_register db _ _ rfl rfl

theorem profile_StepOk (db : DB) (user : CustomUser) (post : ProfilePost) :
    StepOk db (profile_view db user post).db := by
  unfold profile_view
  exact StepOk_updateUser db _

theorem approve_seller_StepOk (db : DB) (user : CustomUser) (uid : Nat)
    (action reason : String) :
    StepOk db (approve_seller_view db user uid action reason).db := by
  unfold approve_seller_view
  split
  · exact StepOk_refl db
  · split
    · exact StepOk_refl db
    · split
      · exact StepOk_updateUser db _
      · split
        · exact StepOk_updateUser db _
        · exact StepOk_refl db

theorem toggle_seller_StepOk (db : DB) (user : CustomUser) (uid : Nat) (reason : String) :
    StepOk db (toggle_seller_status_view db user uid reason).db := by
  unfold toggle_seller_status_view
  split
  · exact StepOk_refl db
  · split
    · exact StepOk_refl db
    · split
      · exact StepOk_updateUser db _
      · exact StepOk_updateUser db _

theorem phone_create_StepOk (db : DB) (user : CustomUser) :
    StepOk db (phone_create_view db user).db := by
  unfold phone_create_view
  split
  · exact StepOk_refl db
  · exact StepOk_refl db

theorem agreement_create_StepOk (db : DB) (user : CustomUser) (post : AgreementCreatePost) :
    StepOk db (agreement_create_view db user post).db := by
  unfold agreement_create_view
  split
  · exact StepOk_refl db
  · split
    · exact StepOk_refl db
    · split
      · exact StepOk_refl db
      · exact StepOk_refl db

theorem target_create_StepOk (db : DB) (user : CustomUser) (sid : Option Nat) :
    StepOk db (target_create_view db user sid).db := by
  unfold target_create_view
  split
  · exact StepOk_refl db
  · split
    · split
      · exact StepOk_refl db
      · exact StepOk_refl db
    · split
      · exact StepOk_refl db
      · split
        · exact StepOk_refl db
        · exact StepOk_refl db

theorem phone_update_StepOk (db : DB) (user : CustomUser) (pk : Nat) (post : PhoneUpdatePost) :
    StepOk db (phone_update_view db user pk post).db := by
  unfold phone_update_view
  split
  · exact StepOk_refl db
  case h_2 phone hphone =>
    split
    · exact StepOk_refl db
    · have hmem : phone ∈ db.phones := List.mem_of_find?_eq_some hphone
      split
      · exact StepOk_updatePhone_samestatus db phone _ hmem rfl rfl
      · exact StepOk_updatePhone_samestatus db phone _ hmem rfl rfl

theorem assign_StepOk (db : DB) (user : CustomUser) (pid : Nat) (post : AssignPost) :
    StepOk db (assign_phone_view db user pid post).db := by
  unfold assign_phone_view
  split
  · exact StepOk_refl db
  case h_2 phone hphone =>
    split
    · exact StepOk_refl db
    case isFalse hav =>
      split
      · exact StepOk_refl db
      case h_2 to_seller hts =>
        split
        · exact StepOk_refl db
        · have hmem : phone ∈ db.phones := List.mem_of_find?_eq_some hphone
          exact StepOk_assign db phone _ hmem (not_not.mp hav) rfl rfl rfl

theorem phone_assign_StepOk (db : DB) (user : CustomUser) (pk : Nat) (post : PhoneAssignPost) :
    StepOk db (phone_assign_view db user pk post).db := by
  unfold phone_assign_view
  split
  · exact StepOk_refl db
  · split
    · exact StepOk_refl db
    · split
      · exact StepOk_refl db
      · split
        case isTrue h => exact absurd h (by decide)
        case isFalse _ => exact StepOk_refl db

theorem approve_assignment_StepOk (db : DB) (user : CustomUser) (aid : Nat) :
    StepOk db (approve_assignment_view db user aid).db := by
  unfold approve_assignment_view
  split
  · exact StepOk_refl db
  case h_2 a ha =>
    split
    · exact StepOk_refl db
    case h_2 phone hphone =>
      have hamem : a ∈ db.assignments := List.mem_of_find?_eq_some ha
      have hpend : a.status = "pending" := by
        have := List.find?_some ha
        simp only [Bool.and_eq_true, decide_eq_true_eq] at this
        exact this.2
      have hpmem : phone ∈ db.phones := List.mem_of_find?_eq_some hphone
      have hpid : phone.id = a.phone := by
        simpa using List.find?_some hphone
      refine StepOk_trans db
        (updateAssignment
          (updatePhone db { phone with current_owner := a.to_seller, status := "available" })
          { a with status := "approved" }) _
        (StepOk_resolve db a phone
          { phone with current_owner := a.to_seller, status := "available" }
          hamem hpend hpmem hpid rfl "approved" (by decide)) ?_
      exact StepOk_frame _ _ rfl rfl rfl rfl rfl rfl (List.prefix_append _ _)

theorem reject_assignment_StepOk (db : DB) (user : CustomUser) (aid : Nat) :
    StepOk db (reject_assignment_view db user aid).db := by
  unfold reject_assignment_view
  split
  · exact StepOk_refl db
  case h_2 a ha =>
    split
    · exact StepOk_refl db
    case h_2 phone hphone =>
      have hamem : a ∈ db.assignments := List.mem_of_find?_eq_some ha
      have hpend : a.status = "pending" := by
        have := List.find?_some ha
        simp only [Bool.and_eq_true, decide_eq_true_eq] at this
        exact this.2
      have hpmem : phone ∈ db.phones := List.mem_of_find?_eq_some hphone
      have hpid : phone.id = a.phone := by
        simpa using List.find?_some hphone
      refine StepOk_trans db
        (updateAssignment (updatePhone db { phone with status := "available" })
          { a with status := "rejected" }) _
        (StepOk_resolve db a phone { phone with status := "available" }
          hamem hpend hpmem hpid rfl "rejected" (by decide)) ?_
      exact StepOk_frame _ _ rfl rfl rfl rfl rfl rfl (List.prefix_append _ _)

/-- Chain one write with further writes that only touch
agreements/histories/transactions. -/
theorem StepOk_of_frame_eq (db mid db' : DB) (h : StepOk db mid)
    (h1 : db'.users = mid.users) (h2 : db'.phones = mid.phones)
    (h3 : db'.assignments = mid.assignments) (h4 : db'.nextUserId = mid.nextUserId)
    (h5 : db'.nextPhoneId = mid.nextPhoneId) (h6 : db'.nextAssignmentId = mid.nextAssignmentId)
    (h7 : mid.histories <+: db'.histories) : StepOk db db' :=
  StepOk_trans db mid db' h (StepOk_frame mid db' h1 h2 h3 h4 h5 h6 h7)

theorem sell_StepOk (db : DB) (user : CustomUser) (pid : Nat) (post : SellPost) :
    StepOk db (sell_phone_view db user pid post).db := by
  unfold sell_phone_view
  split
  · exact StepOk_refl db
  case h_2 phone hphone =>
    split
    · exact StepOk_refl db
    case isFalse hav =>
      have hmem : phone ∈ db.phones := List.mem_of_find?_eq_some hphone
      have hav' : phone.status = "available" := not_not.mp hav
      repeat' first | split | dsimp only
      all_goals first
        | exact StepOk_refl db
        | exact StepOk_frame db _ rfl rfl rfl rfl rfl rfl List.prefix_rfl
        | exact StepOk_frame db _ rfl rfl rfl rfl rfl rfl (List.prefix_append _ _)
        | exact StepOk_of_frame_eq db _ _
            (StepOk_updatePhone_avail db phone { phone with status := "sold" } hmem rfl hav')
            rfl rfl rfl rfl rfl rfl List.prefix_rfl
        | exact StepOk_of_frame_eq db _ _
            (StepOk_updatePhone_avail db phone { phone with status := "sold" } hmem rfl hav')
            rfl rfl rfl rfl rfl rfl (List.prefix_append _ _)

theorem buy_StepOk (db : DB) (user : CustomUser) (post : BuyPost) :
    StepOk db (buy_phone_view db user post).db := by
  unfold buy_phone_view
  repeat' first | split | dsimp only
  all_goals first
    | exact StepOk_refl db
    | exact StepOk_appendPhone db _ rfl
    | exact StepOk_of_frame_eq db _ _ (StepOk_appendPhone db _ rfl)
        rfl rfl rfl rfl rfl rfl List.prefix_rfl
    | exact StepOk_of_frame_eq db _ _ (StepOk_appendPhone db _ rfl)
        rfl rfl rfl rfl rfl rfl (List.prefix_append _ _)

theorem step_StepOk (op : Op) (db : DB) : StepOk db (step op db) := by
  cases op with
  | register ru post => exact register_StepOk db ru post
  | profileUpdate user post => exact profile_StepOk db user post
  | approveSeller user uid action reason => exact approve_seller_StepOk db user uid action reason
  | toggleSeller user uid reason => exact toggle_seller_StepOk db user uid reason
  | phoneCreate user => exact phone_create_StepOk db user
  | phoneUpdate user pk post => exact phone_update_StepOk db user pk post
  | agreementCreate user post => exact agreement_create_StepOk db user post
  | buyPhone user post => exact buy_StepOk db user post
  | sellPhone user pid post => exact sell_StepOk db user pid post
  | phoneAssign user pk post => exact phone_assign_StepOk db user pk post
  | assignPhone user pid post => exact assign_StepOk db user pid post
  | approveAssignment user aid => exact approve_assignment_StepOk db user aid
  | rejectAssignment user aid => exact reject_assignment_StepOk db user aid
  | targetCreate user sid => exact target_create_StepOk db user sid

theorem steps_StepOk (ops : List Op) (db : DB) : StepOk db (steps ops db) := by
  induction ops generalizing db with
  | nil => exact StepOk_refl db
  | cons op ops ih =>
    exact StepOk_trans db (step op db) (steps ops (step op db))
      (step_StepOk op db) (ih (step op db))

/-! ### find?/updateByKey interaction -/

theorem find?_updateByKey_eq {α : Type} (key : α → Nat) (x : α) (l : List α) (k : Nat)
    (hk : key x = k) (h : ∃ y ∈ l, key y = k) :
    (updateByKey key x l).find? (fun y => key y == k) = some x := by
  induction l with
  | nil => simp at h
  | cons z zs ih =>
    by_cases hz : key z = k
    · have : key z = key x := by rw [hz, hk]
      simp only [updateByKey, List.map_cons, if_pos this, List.find?]
      rw [show (key x == k) = true by simp [hk]]
    · have hzx : ¬ key z = key x := by rw [hk]; exact hz
      simp only [updateByKey, List.map_cons, if_neg hzx, List.find?]
      rw [show (key z == k) = false by simp [hz]]
      apply ih
      rcases h with ⟨y, hy, hyk⟩
      rcases List.mem_cons.mp hy with rfl | hy'
      · exact absurd hyk hz
      · exact ⟨y, hy', hyk⟩

theorem find?_updateByKey_ne {α : Type} (key : α → Nat) (x : α) (l : List α) (k : Nat)
    (hk : key x ≠ k) :
    (updateByKey key x l).find? (fun y => key y == k) = l.find? (fun y => key y == k) := by
  induction l with
  | nil => rfl
  | cons z zs ih =>
    by_cases hz : key z = key x
    · simp only [updateByKey, List.map_cons, if_pos hz, List.find?]
      rw [show (key x == k) = false by simp [hk],
          show (key z == k) = false by rw [hz]; simp [hk]]
      exact ih
    · simp only [updateByKey, List.map_cons, if_neg hz, List.find?]
      cases hp : (key z == k) <;> simp only []
      exact ih

theorem updateByKey_append_fresh {α : Type} (key : α → Nat) (l : List α) (x x' : α)
    (hfresh : ∀ y ∈ l, key y ≠ key x') (hk : key x = key x') :
    updateByKey key x' (l ++ [x]) = l ++ [x'] := by
  unfold updateByKey
  rw [List.map_append]
  have h1 : l.map (fun y => if key y = key x' then x' else y) = l := by
    induction l with
    | nil => rfl
    | cons z zs ih =>
      simp only [List.map_cons]
      rw [if_neg (hfresh z (List.mem_cons_self _ _)),
          ih (fun y hy => hfresh y (List.mem_cons_of_mem _ hy))]
  rw [h1]
  simp [hk]

/-! ### Claim theorems: the state machine -/

/-- C1: a phone whose status is `sold` keeps status `sold` across any
sequence of exposed operations (agreement creation via `buy_phone_view`,
`sell_phone_view` or the stale `agreement_create_view`; assignment creation
via `assign_phone_view` or the stale `phone_assign_view`; assignment
approval and rejection; and every other state-mutating view); in particular
it never becomes `assigned` or `available`. -/
theorem C1_sold_is_terminal (db : DB) (hwf : WF db) (ops : List Op) (p : Phone)
    (hp : p ∈ db.phones) (hs : p.status = "sold") :
    ∀ q ∈ (steps ops db).phones, q.id = p.id → q.status = "sold" := by
  obtain ⟨hw, _, hsold, _⟩ := steps_StepOk ops db
  obtain ⟨q0, hq0, hq0id, hq0s⟩ := hsold hwf p hp hs
  intro q hq hqid
  have hwf' := hw hwf
  unfold WF at hwf'
  obtain ⟨_, _, _, w4, _, _, _, _⟩ := hwf'
  have hqq : q = q0 := nodup_map_inj Phone.id _ w4 q q0 hq hq0 (by rw [hqid, ← hq0id])
  rw [hqq]
  exact hq0s

/-- C8: an assignment in a terminal state (`approved` or `rejected`) never
has its status changed again by any sequence of exposed operations. -/
theorem C8_terminal_assignment_final (db : DB) (hwf : WF db) (ops : List Op)
    (a : PhoneAssignment) (ha : a ∈ db.assignments)
    (hterm : a.status = "approved" ∨ a.status = "rejected") :
    ∀ b ∈ (steps ops db).assignments, b.id = a.id → b.status = a.status := by
  have hne : a.status ≠ "pending" := by
    rcases hterm with h | h <;> rw [h] <;> decide
  obtain ⟨hw, _, _, hterms⟩ := steps_StepOk ops db
  obtain ⟨b0, hb0, hb0id, hb0s⟩ := hterms hwf a ha hne
  intro b hb hbid
  have hwf' := hw hwf
  unfold WF at hwf'
  obtain ⟨_, _, _, _, w5, _, _, _⟩ := hwf'
  have hbb : b = b0 := nodup_map_inj PhoneAssignment.id _ w5 b b0 hb hb0 (by rw [hbid, ← hb0id])
  rw [hbb]
  exact hb0s

/-- C9: the history table is append-only — after any sequence of exposed
operations the old rows are an unchanged prefix of the new table (rows are
only ever appended, never updated or deleted). -/
theorem C9_history_append_only (db : DB) (ops : List Op) :
    db.histories <+: (steps ops db).histories :=
  (steps_StepOk ops db).2.1

/-- C5: approving a pending assignment (the view filters on the assignment
id, `to_seller = request.user` and `status = 'pending'`) sets the phone to
`available` with `current_owner = to_seller`, sets the assignment to
`approved`, and appends exactly one history row, with action `approve`. -/
theorem C5_approve (db : DB) (user : CustomUser) (aid : Nat) (a : PhoneAssignment)
    (phone : Phone)
    (ha : db.assignments.find? (fun x =>
        x.id == aid && x.to_seller == user.id && decide (x.status = "pending")) = some a)
    (hphone : findPhone db a.phone = some phone) :
    findPhone (approve_assignment_view db user aid).db a.phone =
      some { phone with current_owner := a.to_seller, status := "available" } ∧
    findAssignment (approve_assignment_view db user aid).db a.id =
      some { a with status := "approved" } ∧
    (approve_assignment_view db user aid).db.histories =
      db.histories ++ [approveHistoryRow db a phone] ∧
    (approveHistoryRow db a phone).action = "approve" := by
  have hmemA : a ∈ db.assignments := List.mem_of_find?_eq_some ha
  have hmemP : phone ∈ db.phones := List.mem_of_find?_eq_some hphone
  have hpa : phone.id = a.phone := by simpa using List.find?_some hphone
  unfold approve_assignment_view
  rw [ha]
  dsimp only
  rw [hphone]
  dsimp only
  refine ⟨?_, ?_, rfl, rfl⟩
  · exact find?_updateByKey_eq Phone.id _ db.phones a.phone hpa ⟨phone, hmemP, hpa⟩
  · exact find?_updateByKey_eq PhoneAssignment.id _ db.assignments a.id rfl ⟨a, hmemA, rfl⟩

/-- C6: rejecting a pending assignment sets the phone back to `available`
leaving every other phone field — in particular `current_owner` — unchanged,
sets the assignment to `rejected`, and appends exactly one history row, with
action `reject`. -/
theorem C6_reject (db : DB) (user : CustomUser) (aid : Nat) (a : PhoneAssignment)
    (phone : Phone)
    (ha : db.assignments.find? (fun x =>
        x.id == aid && x.to_seller == user.id && decide (x.status = "pending")) = some a)
    (hphone : findPhone db a.phone = some phone) :
    findPhone (reject_assignment_view db user aid).db a.phone =
      some { phone with status := "available" } ∧
    ({ phone with status := "available" } : Phone).current_owner = phone.current_owner ∧
    findAssignment (reject_assignment_view db user aid).db a.id =
      some { a with status := "rejected" } ∧
    (reject_assignment_view db user aid).db.histories =
      db.histories ++ [rejectHistoryRow db a phone] ∧
    (rejectHistoryRow db a phone).action = "reject" := by
  have hmemA : a ∈ db.assignments := List.mem_of_find?_eq_some ha
  have hmemP : phone ∈ db.phones := List.mem_of_find?_eq_some hphone
  have hpa : phone.id = a.phone := by simpa using List.find?_some hphone
  unfold reject_assignment_view
  rw [ha]
  dsimp only
  rw [hphone]
  dsimp only
  refine ⟨?_, rfl, ?_, rfl, rfl⟩
  · exact find?_updateByKey_eq Phone.id _ db.phones a.phone hpa ⟨phone, hmemP, hpa⟩
  · exact find?_updateByKey_eq PhoneAssignment.id _ db.assignments a.id rfl ⟨a, hmemA, rfl⟩

/-- C10: when the selected recipient of `assign_phone_view` is the
requesting user, the database is unchanged (no `PhoneAssignment` row is
created, the phone status is untouched) and — whenever the request got past
the ownership 404 check — the view answers with exactly one error flash
message. -/
theorem C10_no_self_assign (db : DB) (user : CustomUser) (pid : Nat) (post : AssignPost)
    (hself : post.to_seller = some user.id) :
    (assign_phone_view db user pid post).db = db ∧
    (∀ phone, db.phones.find? (fun p => p.id == pid && p.current_owner == user.id) = some phone →
      ∃ m, (assign_phone_view db user pid post).msgs = [Msg.error m]) := by
  unfold assign_phone_view
  rw [hself]
  split
  case h_1 hfind =>
    refine ⟨rfl, ?_⟩
    intro phone hc
    rw [hfind] at hc
    cases hc
  case h_2 phone hfind =>
    split
    · exact ⟨rfl, fun _ _ => ⟨_, rfl⟩⟩
    · split
      case h_1 => exact ⟨rfl, fun _ _ => ⟨_, rfl⟩⟩
      case h_2 ts hts =>
        have hts' : db.users.find? (fun u2 =>
            u2.id == user.id && decide (u2.role = some "seller") && !u2.is_suspended) =
            some ts := hts
        have htsid : ts.id = user.id := by
          have := List.find?_some hts'
          simp only [Bool.and_eq_true, beq_iff_eq] at this
          exact this.1.1
        rw [if_pos htsid]
        exact ⟨rfl, fun _ _ => ⟨_, rfl⟩⟩

/-! ### Concrete fixtures -/

def seller1 : CustomUser :=
  { id := 1, username := "alice", email := "alice@shop.rw", role := some "seller",
    is_superuser := false, is_suspended := false, suspended_reason := "",
    suspended_by := none, first_name := "Alice", last_name := "K",
    phone_number := "+250700000001", address := "Kigali", national_id := "N1",
    hasSignature := true }

def seller2 : CustomUser :=
  { seller1 with id := 2, username := "bob", email := "bob@shop.rw",
                 first_name := "Bob", last_name := "M",
                 phone_number := "+250700000002", national_id := "N2" }

def susSeller : CustomUser :=
  { seller1 with id := 3, username := "carol", email := "carol@shop.rw",
                 is_suspended := true,
                 suspended_reason := "New account pending manager approval" }

def phoneSold : Phone :=
  { id := 1, imei := "356938035643809", serial_number := "SN1", brand := "Acme",
    model := "X1", color := "black", condition := "used", status := "sold",
    purchase_price := some 100, current_owner := 1 }

def phoneAvail : Phone :=
  { phoneSold with id := 2, imei := "356938035643810", serial_number := "SN2",
                   status := "available" }

def phoneAssigned : Phone :=
  { phoneSold with id := 3, imei := "356938035643811", serial_number := "SN3",
                   status := "assigned" }

def pendAssign : PhoneAssignment :=
  { id := 1, phone := 3, from_seller := 1, to_seller := 2, status := "pending",
    message := "" }

def doneAssign : PhoneAssignment :=
  { id := 2, phone := 2, from_seller := 2, to_seller := 1, status := "approved",
    message := "" }

def db0 : DB :=
  { users := [seller1, seller2], phones := [phoneSold, phoneAvail, phoneAssigned],
    agreements := [], histories := [], assignments := [pendAssign, doneAssign],
    transactions := [], nextUserId := 3, nextPhoneId := 4, nextAgreementId := 1,
    nextAssignmentId := 3 }

def sellPostBadPhoto : SellPost :=
  { buyer_name := "Bob", buyer_id := "ID9", buyer_phone := "0788123456",
    buyer_address := "Kigali", agreed_price := some 150, notes := "",
    buyer_email := "", payment_method := "cash",
    buyer_id_photo := some "data:image/png;base64,AAAAA",
    buyer_signature_photo := none }

def txnZeroCost : SalesTransaction :=
  { transaction_id := "TXN-1", seller := 1, phone := 1, agreement := some 1,
    customer_name := "Bob", customer_phone := "0788123456", customer_email := "",
    sale_price := 10, cost_price := 0, profit := 5, commission_rate := 10,
    commission_amount := 7, payment_method := "cash", status := "completed" }

def txnBothPrices : SalesTransaction :=
  { txnZeroCost with cost_price := 4, transaction_id := "TXN-2" }


/-! ### Claim theorems: middleware, registration, financial derivation -/

/-- C3 (counterexample): the claim states that suspended non-superusers are
redirected AND that superusers are never redirected by this check.  The
middleware (`accounts/middleware.py`) tests only `is_authenticated` and
`is_suspended` — it has no `is_superuser` exemption — so a suspended
superuser requesting `/phones/` is redirected, refuting the second half. -/
theorem C3_counterexample :
    ¬ ((∀ (u : CustomUser) (path : String), u.is_suspended = true → u.is_superuser = false →
          ¬ path ∈ allowed_urls → SuspensionMiddleware.call (some u) path = .redirectHold) ∧
       (∀ (u : CustomUser) (path : String), u.is_superuser = true ∨ u.is_suspended = false →
          SuspensionMiddleware.call (some u) path = .passThrough)) := by
  intro h
  exact absurd (h.2
    { id := 9, username := "root", email := "root@shop.rw", role := none,
      is_superuser := true, is_suspended := true, suspended_reason := "hold",
      suspended_by := none, first_name := "", last_name := "", phone_number := "",
      address := "", national_id := "", hasSignature := false } "/phones/" (Or.inl rfl))
    (by decide)

/-- C3 (amended): every authenticated suspended user — superuser or not —
requesting a path outside the hold/logout allow-list is redirected to the
hold page; requests to allow-listed paths, by non-suspended users, or by
anonymous users pass through. -/
theorem C3_amended (u : CustomUser) (path : String) :
    (u.is_suspended = true → ¬ path ∈ allowed_urls →
        SuspensionMiddleware.call (some u) path = .redirectHold) ∧
    (u.is_suspended = true → path ∈ allowed_urls →
        SuspensionMiddleware.call (some u) path = .passThrough) ∧
    (u.is_suspended = false → SuspensionMiddleware.call (some u) path = .passThrough) ∧
    SuspensionMiddleware.call none path = .passThrough := by
  unfold SuspensionMiddleware.call
  refine ⟨?_, ?_, ?_, rfl⟩
  · intro hs hmem
    simp [hs, hmem]
  · intro hs hmem
    simp [hs, hmem]
  · intro hs
    simp [hs]

/-- C4 (counterexample): `SalesTransaction.save` skips the recomputation
whenever either price is falsy; with `cost_price = 0` a stale stored profit
survives the save, refuting "recomputed … on every save regardless of the
values previously stored". -/
theorem C4_counterexample :
    ¬ (∀ (gen : String) (t : SalesTransaction),
        (SalesTransaction.save gen t).profit = t.sale_price - t.cost_price ∧
        (SalesTransaction.save gen t).commission_amount =
          (SalesTransaction.save gen t).profit * t.commission_rate / 100) := by
  intro h
  have hsave : SalesTransaction.save "TXN-X" txnZeroCost = txnZeroCost := by
    unfold SalesTransaction.save
    dsimp only
    rw [if_neg (show ¬ (txnZeroCost.sale_price ≠ 0 ∧ txnZeroCost.cost_price ≠ 0) from
          fun hc => hc.2 rfl)]
    rw [if_neg (show ¬ txnZeroCost.transaction_id = "" by decide)]
  have h2 := (h "TXN-X" txnZeroCost).1
  rw [hsave] at h2
  simp only [txnZeroCost] at h2
  norm_num at h2

/-- C4 (amended): when both `sale_price` and `cost_price` are nonzero
(Python-truthy `Decimal`s), the save hook stores
`profit = sale_price - cost_price` and
`commission_amount = profit * commission_rate / 100`; when either price is
zero, `profit` and `commission_amount` keep their previously stored
values. -/
theorem C4_amended (gen : String) (t : SalesTransaction) :
    (t.sale_price ≠ 0 → t.cost_price ≠ 0 →
      (SalesTransaction.save gen t).profit = t.sale_price - t.cost_price ∧
      (SalesTransaction.save gen t).commission_amount =
        (SalesTransaction.save gen t).profit * t.commission_rate / 100) ∧
    (t.sale_price = 0 ∨ t.cost_price = 0 →
      (SalesTransaction.save gen t).profit = t.profit ∧
      (SalesTransaction.save gen t).commission_amount = t.commission_amount) := by
  unfold SalesTransaction.save
  constructor
  · intro h1 h2
    dsimp only
    rw [if_pos (And.intro h1 h2)]
    split <;> exact ⟨rfl, rfl⟩
  · intro h
    have hneg : ¬ (t.sale_price ≠ 0 ∧ t.cost_price ≠ 0) := by
      intro hc
      rcases h with h | h
      · exact hc.1 h
      · exact hc.2 h
    dsimp only
    rw [if_neg hneg]
    split <;> exact ⟨rfl, rfl⟩

/-- C7: a successful seller self-registration appends one user with
role `seller`, `is_suspended = True` and the pending-approval reason, and
redirects to the login page. -/
theorem C7_register (db : DB) (post : RegisterPost) (hwf : WF db)
    (hpw : post.password1 = post.password2)
    (hun : ∀ u ∈ db.users, u.username ≠ post.username)
    (hem : ∀ u ∈ db.users, u.email ≠ post.email)
    (hph : pyStartsWith post.phone_number "+250" ∧ post.phone_number.toList.length = 13) :
    ∃ u, (register_view db none post).db.users = db.users ++ [u] ∧
      u.role = some "seller" ∧ u.is_suspended = true ∧
      u.suspended_reason = "New account pending manager approval" ∧
      (register_view db none post).resp = Resp.redirect "login" := by
  have hc1 : ¬ post.password1 ≠ post.password2 := fun h => h hpw
  have hc2 : ¬ (db.users.any (fun u => u.username == post.username) = true) := by
    rw [List.any_eq_true]
    rintro ⟨u, hu, he⟩
    exact hun u hu (by simpa using he)
  have hc3 : ¬ (db.users.any (fun u => u.email == post.email) = true) := by
    rw [List.any_eq_true]
    rintro ⟨u, hu, he⟩
    exact hem u hu (by simpa using he)
  unfold register_view
  dsimp only
  rw [if_neg hc1, if_neg hc2, if_neg hc3, if_neg (not_not_intro hph)]
  refine ⟨CustomUser.suspend
    { id := db.nextUserId, username := post.username, email := post.email,
      role := some "seller", is_superuser := false, is_suspended := false,
      suspended_reason := "", suspended_by := none, first_name := post.first_name,
      last_name := post.last_name, phone_number := post.phone_number,
      address := "", national_id := "", hasSignature := false }
    "New account pending manager approval" none, ?_, rfl, rfl, rfl, rfl⟩
  refine updateByKey_append_fresh CustomUser.id db.users _ _ ?_ rfl
  intro y hy
  unfold WF at hwf
  exact Nat.ne_of_lt (hwf.1 y hy)

/-- C2 (failing input): `sell_phone_view` on an available phone with a
malformed base64 buyer-photo payload (five data characters, `b64decode`
raises `binascii.Error`).  The step fails after the agreement INSERT
committed: the view reports an error, the agreement row persists, and only
phone status, history and transactions are unchanged — agreement creation is
not atomic with its side effects. -/
theorem C2_partial_write_on_error :
    (sell_phone_view db0 seller1 2 sellPostBadPhoto).msgs =
      [Msg.error "Error creating sale: invalid base64"] ∧
    (sell_phone_view db0 seller1 2 sellPostBadPhoto).db.agreements.length = 1 ∧
    db0.agreements.length = 0 ∧
    (sell_phone_view db0 seller1 2 sellPostBadPhoto).db.phones = db0.phones ∧
    (sell_phone_view db0 seller1 2 sellPostBadPhoto).db.histories = db0.histories ∧
    (sell_phone_view db0 seller1 2 sellPostBadPhoto).db.transactions = db0.transactions := by
  decide

/-! ### Witnesses -/

theorem C1_witness :
    WF db0 ∧ phoneSold ∈ db0.phones ∧ phoneSold.status = "sold" ∧
    (∀ q ∈ (steps [Op.phoneAssign seller1 1 ⟨some 2, "take it"⟩,
        Op.sellPhone seller2 1 sellPostBadPhoto] db0).phones,
      q.id = phoneSold.id → q.status = "sold") :=
  ⟨by decide, by decide, rfl,
   C1_sold_is_terminal db0 (by decide) _ phoneSold (by decide) rfl⟩

theorem C3_witness :
    SuspensionMiddleware.call (some susSeller) "/phones/" = MwOutcome.redirectHold ∧
    SuspensionMiddleware.call (some seller1) "/phones/" = MwOutcome.passThrough :=
  ⟨(C3_amended susSeller "/phones/").1 rfl (by decide),
   (C3_amended seller1 "/phones/").2.2.1 rfl⟩

theorem C4_witness :
    ((SalesTransaction.save "g" txnBothPrices).profit =
        txnBothPrices.sale_price - txnBothPrices.cost_price ∧
      (SalesTransaction.save "g" txnBothPrices).commission_amount =
        (SalesTransaction.save "g" txnBothPrices).profit *
          txnBothPrices.commission_rate / 100) ∧
    ((SalesTransaction.save "g" txnZeroCost).profit = txnZeroCost.profit ∧
      (SalesTransaction.save "g" txnZeroCost).commission_amount =
        txnZeroCost.commission_amount) :=
  ⟨(C4_amended "g" txnBothPrices).1 (by decide) (by decide),
   (C4_amended "g" txnZeroCost).2 (Or.inr rfl)⟩

theorem C5_witness :
    findPhone (approve_assignment_view db0 seller2 1).db pendAssign.phone =
      some { phoneAssigned with current_owner := pendAssign.to_seller,
                                status := "available" } ∧
    findAssignment (approve_assignment_view db0 seller2 1).db pendAssign.id =
      some { pendAssign with status := "approved" } ∧
    (approve_assignment_view db0 seller2 1).db.histories =
      db0.histories ++ [approveHistoryRow db0 pendAssign phoneAssigned] ∧
    (approveHistoryRow db0 pendAssign phoneAssigned).action = "approve" :=
  C5_approve db0 seller2 1 pendAssign phoneAssigned (by decide) (by decide)

theorem C6_witness :
    findPhone (reject_assignment_view db0 seller2 1).db pendAssign.phone =
      some { phoneAssigned with status := "available" } ∧
    ({ phoneAssigned with status := "available" } : Phone).current_owner =
      phoneAssigned.current_owner ∧
    findAssignment (reject_assignment_view db0 seller2 1).db pendAssign.id =
      some { pendAssign with status := "rejected" } ∧
    (reject_assignment_view db0 seller2 1).db.histories =
      db0.histories ++ [rejectHistoryRow db0 pendAssign phoneAssigned] ∧
    (rejectHistoryRow db0 pendAssign phoneAssigned).action = "reject" :=
  C6_reject db0 seller2 1 pendAssign phoneAssigned (by decide) (by decide)

def regPost : RegisterPost :=
  { username := "dave", email := "dave@shop.rw", first_name := "Dave",
    last_name := "N", phone_number := "+250788123456", password1 := "pw1",
    password2 := "pw1" }

theorem C7_witness :
    ∃ u, (register_view db0 none regPost).db.users = db0.users ++ [u] ∧
      u.role = some "seller" ∧ u.is_suspended = true ∧
      u.suspended_reason = "New account pending manager approval" ∧
      (register_view db0 none regPost).resp = Resp.redirect "login" :=
  C7_register db0 regPost (by decide) rfl (by decide) (by decide) (by decide)

theorem C8_witness :
    WF db0 ∧ doneAssign ∈ db0.assignments ∧ doneAssign.status = "approved" ∧
    (∀ b ∈ (steps [Op.approveAssignment seller1 2, Op.rejectAssignment seller1 2,
        Op.assignPhone seller1 2 ⟨some 2, "again"⟩] db0).assignments,
      b.id = doneAssign.id → b.status = doneAssign.status) :=
  ⟨by decide, by decide, rfl,
   C8_terminal_assignment_final db0 (by decide) _ doneAssign (by decide) (Or.inl rfl)⟩

theorem C10_witness :
    (assign_phone_view db0 seller1 2 ⟨some seller1.id, "mine"⟩).db = db0 ∧
    (∃ m, (assign_phone_view db0 seller1 2 ⟨some seller1.id, "mine"⟩).msgs =
      [Msg.error m]) := by
  have h := C10_no_self_assign db0 seller1 2 ⟨some seller1.id, "mine"⟩ rfl
  exact ⟨h.1, h.2 phoneAvail (by decide)⟩

end PAM
